import Mathlib

/-
Verification of the unit-descriptor algebra and converter registry of
property-utils (src/property_utils/units/descriptors.py and
src/property_utils/units/converter_types.py), as a shallow embedding.

Modelling conventions:
* Python floats (unit powers and conversion factors) are modelled as rationals;
  the claims under study use values and arithmetic that are exact in both.
* A measurement-unit family (a MeasurementUnit subclass) is a value of an
  abstract type F; a unit instance (an enum member) a value of U.  The static
  data the class hierarchy provides (si(), is_non_dimensional(),
  aliased_generic_descriptor(), membership of a unit in a family) is collected
  in a UnitEnv record.
* Methods that recurse through alias expansion (is_equivalent, analyse) take a
  fuel bound: the Python code terminates only for acyclic alias declarations
  (a documented precondition), and with acyclic declarations a large enough
  fuel computes the same answer.
-/

attribute [local semireducible] Rat.add Rat.mul Rat.sub Rat.inv Rat.ofScientific

namespace PropertyUtils

/-- descriptors.py, class GenericDimension: a unit family raised to a power. -/
structure GenericDimension (F : Type) where
  unit_type : F
  power : ℚ
deriving DecidableEq, Repr

/-- descriptors.py, class GenericCompositeDimension: a product/quotient of
generic dimensions, kept as two insertion-ordered lists. -/
structure GenericCompositeDimension (F : Type) where
  numerator : List (GenericDimension F)
  denominator : List (GenericDimension F)
deriving DecidableEq, Repr

/-- The three generic unit descriptor shapes a Python value can have: a bare
MeasurementUnit subclass (MeasurementUnitType), a GenericDimension, or a
GenericCompositeDimension. -/
inductive PyGeneric (F : Type) where
  | unitType : F → PyGeneric F
  | dim : GenericDimension F → PyGeneric F
  | comp : GenericCompositeDimension F → PyGeneric F
deriving DecidableEq, Repr

/-- descriptors.py, class Dimension: a unit instance raised to a power. -/
structure Dimension (U : Type) where
  unit : U
  power : ℚ
deriving DecidableEq, Repr

/-- descriptors.py, class CompositeDimension. -/
structure CompositeDimension (U : Type) where
  numerator : List (Dimension U)
  denominator : List (Dimension U)
deriving DecidableEq, Repr

/-- The three concrete unit descriptor shapes: a MeasurementUnit instance, a
Dimension, or a CompositeDimension. -/
inductive PyUnitDesc (U : Type) where
  | unit : U → PyUnitDesc U
  | dim : Dimension U → PyUnitDesc U
  | comp : CompositeDimension U → PyUnitDesc U
deriving DecidableEq, Repr

/-- The static data of the MeasurementUnit class hierarchy: which family each
unit instance belongs to, each family's SI instance, which families are
AliasMeasurementUnit subclasses and what descriptor they alias, and which
families are non-dimensional. -/
structure UnitEnv (F U : Type) where
  familyOf : U → F
  siOf : F → U
  isAlias : F → Bool
  aliasedOf : F → PyGeneric F
  isNonDim : F → Bool

variable {F U : Type}

/-- MeasurementUnitMeta.__pow__ : a bare family to a power is a GenericDimension. -/
def metaPow (f : F) (p : ℚ) : GenericDimension F := ⟨f, p⟩

/-- GenericDimension.__pow__ : multiplies the stored power (self.power *= power). -/
def GenericDimension.pow (d : GenericDimension F) (p : ℚ) : GenericDimension F :=
  ⟨d.unit_type, d.power * p⟩

/-- GenericCompositeDimension.__pow__ : distributes the power onto every
numerator and denominator member. -/
def GenericCompositeDimension.pow (c : GenericCompositeDimension F) (p : ℚ) :
    GenericCompositeDimension F :=
  ⟨c.numerator.map (fun n => n.pow p), c.denominator.map (fun d => d.pow p)⟩

/-- Exponentiation of a generic descriptor of any of the three shapes. -/
def PyGeneric.pow : PyGeneric F → ℚ → PyGeneric F
  | .unitType f, p => .dim (metaPow f p)
  | .dim d, p => .dim (d.pow p)
  | .comp c, p => .comp (c.pow p)

/-- MeasurementUnit.__pow__ (descriptors.py 477-490): a non-dimensional unit is
always kept to the first power. -/
def unitPow (env : UnitEnv F U) (u : U) (p : ℚ) : Dimension U :=
  if env.isNonDim (env.familyOf u) then ⟨u, 1⟩ else ⟨u, p⟩

/-- Dimension.__pow__ (descriptors.py 1016-1035): resets the power to 1 for a
non-dimensional unit, multiplies it otherwise. -/
def Dimension.pow (env : UnitEnv F U) (d : Dimension U) (p : ℚ) : Dimension U :=
  if env.isNonDim (env.familyOf d.unit) then ⟨d.unit, 1⟩ else ⟨d.unit, d.power * p⟩

/-- Python's Counter(l1) == Counter(l2): the two lists hold the same elements
with the same multiplicities. -/
def permEqb [DecidableEq α] (a b : List α) : Bool := decide (a.Perm b)

/-- GenericCompositeDimension.__eq__ : numerator and denominator Counters match. -/
def GenericCompositeDimension.eqb [DecidableEq F]
    (c1 c2 : GenericCompositeDimension F) : Bool :=
  permEqb c1.numerator c2.numerator && permEqb c1.denominator c2.denominator

/-- CompositeDimension.__eq__ : numerator and denominator Counters match. -/
def CompositeDimension.eqb [DecidableEq U] (c1 c2 : CompositeDimension U) : Bool :=
  permEqb c1.numerator c2.numerator && permEqb c1.denominator c2.denominator

/-- Python == between generic descriptor values.  GenericDimension.__eq__
returns False for any operand that is not a GenericDimension (so a bare family
never equals the power-1 GenericDimension over it); composite equality is the
Counter comparison; a bare family equals only the same class. -/
def PyGeneric.eqb [DecidableEq F] : PyGeneric F → PyGeneric F → Bool
  | .unitType a, .unitType b => decide (a = b)
  | .dim a, .dim b => decide (a = b)
  | .comp a, .comp b => a.eqb b
  | _, _ => false

/-- One Python dict update of the simplify loops: exponents[k] += q when the
key is present (keeping its position), exponents[k] = q when it is new
(appended, preserving insertion order). -/
def addExp [DecidableEq κ] : List (κ × ℚ) → κ → ℚ → List (κ × ℚ)
  | [], k, q => [(k, q)]
  | (k0, q0) :: rest, k, q =>
    if k0 = k then (k0, q0 + q) :: rest else (k0, q0) :: addExp rest k q

/-- The exponents dict built by the simplify methods, folded over the
numerator's (key, power) pairs followed by the denominator's (key, -power)
pairs. -/
def buildExps [DecidableEq κ] (pairs : List (κ × ℚ)) : List (κ × ℚ) :=
  pairs.foldl (fun l p => addExp l p.1 p.2) []

/-- The (key, signed power) pairs simplify iterates over: numerator entries
add their power, denominator entries subtract theirs. -/
def GenericCompositeDimension.expPairs (c : GenericCompositeDimension F) :
    List (F × ℚ) :=
  c.numerator.map (fun n => (n.unit_type, n.power)) ++
    c.denominator.map (fun d => (d.unit_type, -d.power))

/-- GenericCompositeDimension.simplify (descriptors.py 1114-1163) as the pure
list computation shared by simplify() (which rebinds the object's lists to the
result) and simplified() (which returns it on a fresh object).  Note: no
non-dimensional filtering happens here, unlike the concrete counterpart. -/
def GenericCompositeDimension.simplify [DecidableEq F]
    (c : GenericCompositeDimension F) : GenericCompositeDimension F :=
  let exps := buildExps c.expPairs
  ⟨(exps.filter (fun ke => decide (0 < ke.2))).map
      (fun ke => GenericDimension.pow ⟨ke.1, 1⟩ ke.2),
    (exps.filter (fun ke => decide (ke.2 < 0))).map
      (fun ke => GenericDimension.pow ⟨ke.1, 1⟩ |ke.2|)⟩

/-- The (unit, signed power) pairs CompositeDimension.simplify iterates over. -/
def CompositeDimension.expPairs (c : CompositeDimension U) : List (U × ℚ) :=
  c.numerator.map (fun n => (n.unit, n.power)) ++
    c.denominator.map (fun d => (d.unit, -d.power))

/-- CompositeDimension.simplify (descriptors.py 1678-1735) as the pure list
computation: keyed by unit instance, non-dimensional units are skipped
(continue) before the sign split. -/
def CompositeDimension.simplify [DecidableEq U] (env : UnitEnv F U)
    (c : CompositeDimension U) : CompositeDimension U :=
  let exps := buildExps c.expPairs
  let kept := exps.filter (fun ke => !(env.isNonDim (env.familyOf ke.1)))
  ⟨(kept.filter (fun ke => decide (0 < ke.2))).map
      (fun ke => Dimension.pow env ⟨ke.1, 1⟩ ke.2),
    (kept.filter (fun ke => decide (ke.2 < 0))).map
      (fun ke => Dimension.pow env ⟨ke.1, 1⟩ |ke.2|)⟩

/-- Python list.remove(x): drop the first element equal to x.  (The ValueError
raised when x is absent is unreachable at the call sites modelled here.) -/
def removeFirst [DecidableEq α] : List α → α → List α
  | [], _ => []
  | a :: as, x => if a = x then as else a :: removeFirst as x

/-- The numerator loop of GenericCompositeDimension.analyse (descriptors.py
1216-1225), with CPython's for-loop semantics over a list that is mutated
while being iterated: the loop index i advances by one each step against the
current list, elements appended by extend are visited, and list.remove shifts
later elements left (so the element after a removed one is skipped).  The
fuel bounds the iteration count; alias declarations are required (but not
checked) to be acyclic. -/
def analyseNumLoop [DecidableEq F] (env : UnitEnv F U) :
    Nat → Nat → List (GenericDimension F) → List (GenericDimension F) →
    List (GenericDimension F) × List (GenericDimension F)
  | 0, _, num, den => (num, den)
  | fuel + 1, i, num, den =>
    match num[i]? with
    | none => (num, den)
    | some n =>
      if env.isAlias n.unit_type then
        let aliased := (env.aliasedOf n.unit_type).pow n.power
        let step :=
          match aliased with
          | .dim gd => (num ++ [gd], den)
          | .comp c => (num ++ c.numerator, den ++ c.denominator)
          | .unitType _ => (num, den)
        analyseNumLoop env fuel (i + 1) (removeFirst step.1 n) step.2
      else analyseNumLoop env fuel (i + 1) num den

/-- The denominator loop of GenericCompositeDimension.analyse (descriptors.py
1227-1236): an alias in the denominator splices the expansion's numerator into
the denominator and its denominator into the numerator. -/
def analyseDenLoop [DecidableEq F] (env : UnitEnv F U) :
    Nat → Nat → List (GenericDimension F) → List (GenericDimension F) →
    List (GenericDimension F) × List (GenericDimension F)
  | 0, _, num, den => (num, den)
  | fuel + 1, i, num, den =>
    match den[i]? with
    | none => (num, den)
    | some d =>
      if env.isAlias d.unit_type then
        let aliased := (env.aliasedOf d.unit_type).pow d.power
        let step :=
          match aliased with
          | .dim gd => (num, den ++ [gd])
          | .comp c => (num ++ c.denominator, den ++ c.numerator)
          | .unitType _ => (num, den)
        analyseDenLoop env fuel (i + 1) step.1 (removeFirst step.2 d)
      else analyseDenLoop env fuel (i + 1) num den

/-- GenericCompositeDimension.analyse as the pure list computation: the
numerator loop runs to completion (it may extend the denominator), then the
denominator loop (it may extend the numerator, which is not re-scanned). -/
def GenericCompositeDimension.analyse [DecidableEq F] (env : UnitEnv F U)
    (fuel : Nat) (c : GenericCompositeDimension F) : GenericCompositeDimension F :=
  let step1 := analyseNumLoop env fuel 0 c.numerator c.denominator
  let step2 := analyseDenLoop env fuel 0 step1.1 step1.2
  ⟨step2.1, step2.2⟩

/-- is_equivalent over generic descriptors: the union of
MeasurementUnitMeta.is_equivalent (descriptors.py 165-218),
GenericDimension.is_equivalent (631-692) and
GenericCompositeDimension.is_equivalent (1278-1337), dispatched on the shapes
of self and other exactly as the chains of isinstance checks and early
returns do.  Fuel is consumed at each recursive call through alias expansion.
Note the (.dim s, .unitType o) case mirrors descriptors.py 658-663, which
expands an alias in `other` but never one in `self`. -/
def isEquiv [DecidableEq F] (env : UnitEnv F U) :
    Nat → PyGeneric F → PyGeneric F → Bool
  | 0, _, _ => false
  | _ + 1, .unitType cls, .unitType o => decide (cls = o)
  | fuel + 1, .unitType cls, .dim o =>
    if cls = o.unit_type ∧ o.power = 1 then true
    else if env.isAlias o.unit_type then
      isEquiv env fuel ((env.aliasedOf o.unit_type).pow o.power) (.unitType cls)
    else if env.isAlias cls then
      isEquiv env fuel (env.aliasedOf cls) (.dim o)
    else false
  | fuel + 1, .unitType cls, .comp o =>
    if o.denominator = [] ∧ o.numerator.length = 1 ∧
        (match o.numerator with
          | [n0] => isEquiv env fuel (.dim n0) (.unitType cls)
          | _ => false) = true then true
    else if env.isAlias cls then
      isEquiv env fuel (env.aliasedOf cls) (.comp o)
    else false
  | fuel + 1, .dim s, .unitType o =>
    if s.unit_type = o ∧ s.power = 1 then true
    else if env.isAlias o then
      isEquiv env fuel (env.aliasedOf o) (.dim s)
    else false
  | fuel + 1, .dim s, .dim o =>
    if s.unit_type = o.unit_type ∧ s.power = o.power then true
    else if env.isAlias o.unit_type then
      isEquiv env fuel ((env.aliasedOf o.unit_type).pow o.power) (.dim s)
    else if env.isAlias s.unit_type then
      isEquiv env fuel ((env.aliasedOf s.unit_type).pow s.power) (.dim o)
    else false
  | fuel + 1, .dim s, .comp o =>
    if o.denominator = [] ∧ o.numerator.length = 1 ∧
        (match o.numerator with
          | [n0] => isEquiv env fuel (.dim n0) (.dim s)
          | _ => false) = true then true
    else if env.isAlias s.unit_type then
      isEquiv env fuel ((env.aliasedOf s.unit_type).pow s.power) (.comp o)
    else false
  | fuel + 1, .comp s, .unitType o =>
    if s.denominator = [] ∧ s.numerator.length = 1 ∧
        (match s.numerator with
          | [n0] => isEquiv env fuel (.dim n0) (.unitType o)
          | _ => false) = true then true
    else if env.isAlias o then
      isEquiv env fuel (env.aliasedOf o) (.comp s)
    else false
  | fuel + 1, .comp s, .dim o =>
    if s.denominator = [] ∧ s.numerator.length = 1 ∧
        (match s.numerator with
          | [n0] => isEquiv env fuel (.dim n0) (.dim o)
          | _ => false) = true then true
    else if env.isAlias o.unit_type then
      isEquiv env fuel ((env.aliasedOf o.unit_type).pow o.power) (.comp s)
    else false
  | fuel + 1, .comp s, .comp o =>
    ((s.analyse env (fuel + 1)).simplify).eqb ((o.analyse env (fuel + 1)).simplify)

/-- MeasurementUnit.to_generic: the unit's own class. -/
def unitToGeneric (env : UnitEnv F U) (u : U) : PyGeneric F :=
  .unitType (env.familyOf u)

/-- Dimension.to_generic: GenericDimension(type(self.unit), self.power). -/
def Dimension.toGeneric (env : UnitEnv F U) (d : Dimension U) : GenericDimension F :=
  ⟨env.familyOf d.unit, d.power⟩

/-- CompositeDimension.to_generic. -/
def CompositeDimension.toGeneric (env : UnitEnv F U) (c : CompositeDimension U) :
    GenericCompositeDimension F :=
  ⟨c.numerator.map (fun n => n.toGeneric env), c.denominator.map (fun d => d.toGeneric env)⟩

/-- to_generic of any concrete descriptor shape. -/
def PyUnitDesc.toGeneric (env : UnitEnv F U) : PyUnitDesc U → PyGeneric F
  | .unit u => unitToGeneric env u
  | .dim d => .dim (d.toGeneric env)
  | .comp c => .comp (c.toGeneric env)

/-- MeasurementUnit.isinstance (descriptors.py 368-386): type(self) == generic,
so only a bare family can match.  (The RelativeTemperatureUnit /
AbsoluteTemperatureUnit overrides in units.py, which additionally accept the
sibling temperature family, are outside the families these claims quantify
over and are not modelled.) -/
def unitIsinstance (env : UnitEnv F U) [DecidableEq F] (u : U) : PyGeneric F → Bool
  | .unitType f => decide (env.familyOf u = f)
  | _ => false

/-- Dimension.isinstance (descriptors.py 856-879): a bare family argument is
first wrapped into the power-1 GenericDimension over it; a composite argument
never matches; a GenericDimension matches on family membership of the unit and
equal power. -/
def Dimension.isinstance (env : UnitEnv F U) [DecidableEq F]
    (d : Dimension U) (g : PyGeneric F) : Bool :=
  let g1 := match g with
    | .unitType f => PyGeneric.dim ⟨f, 1⟩
    | x => x
  match g1 with
  | .dim gd => decide (env.familyOf d.unit = gd.unit_type) && decide (d.power = gd.power)
  | _ => false

/-- CompositeDimension.isinstance (descriptors.py 1553-1574): only a
GenericCompositeDimension can match, by full generic-projection equality. -/
def CompositeDimension.isinstance (env : UnitEnv F U) [DecidableEq F]
    (c : CompositeDimension U) : PyGeneric F → Bool
  | .comp g => (c.toGeneric env).eqb g
  | _ => false

/-- isinstance of any concrete descriptor shape. -/
def PyUnitDesc.isinstance (env : UnitEnv F U) [DecidableEq F] :
    PyUnitDesc U → PyGeneric F → Bool
  | .unit u, g => unitIsinstance env u g
  | .dim d, g => d.isinstance env g
  | .comp c, g => c.isinstance env g

/-- isinstance_equivalent of any concrete descriptor shape:
self.to_generic().is_equivalent(generic). -/
def PyUnitDesc.isinstanceEquivalent (env : UnitEnv F U) [DecidableEq F]
    (fuel : Nat) (d : PyUnitDesc U) (g : PyGeneric F) : Bool :=
  isEquiv env fuel (d.toGeneric env) g

/-- CompositeDimension.get_numerator (descriptors.py 1624-1649): the first
numerator Dimension that isinstance-matches the generic, None otherwise. -/
def CompositeDimension.getNumerator (env : UnitEnv F U) [DecidableEq F]
    (c : CompositeDimension U) (g : PyGeneric F) : Option (Dimension U) :=
  c.numerator.find? (fun n => n.isinstance env g)

/-- CompositeDimension.get_denominator (descriptors.py 1651-1676). -/
def CompositeDimension.getDenominator (env : UnitEnv F U) [DecidableEq F]
    (c : CompositeDimension U) (g : PyGeneric F) : Option (Dimension U) :=
  c.denominator.find? (fun d => d.isinstance env g)

/-- MeasurementUnit.si (classmethod): the SI instance of the unit's family. -/
def unitSi (env : UnitEnv F U) (u : U) : U := env.siOf (env.familyOf u)

/-- Dimension.si (descriptors.py 840-854). -/
def Dimension.si (env : UnitEnv F U) (d : Dimension U) : Dimension U :=
  ⟨unitSi env d.unit, d.power⟩

/-- CompositeDimension.si (descriptors.py 1529-1551). -/
def CompositeDimension.si (env : UnitEnv F U) (c : CompositeDimension U) :
    CompositeDimension U :=
  ⟨c.numerator.map (fun n => n.si env), c.denominator.map (fun d => d.si env)⟩

/-- to_si of a generic descriptor: a bare family projects to its SI unit
instance, a GenericDimension to a Dimension over it, a composite memberwise. -/
def PyGeneric.toSi (env : UnitEnv F U) : PyGeneric F → PyUnitDesc U
  | .unitType f => .unit (env.siOf f)
  | .dim g => .dim ⟨env.siOf g.unit_type, g.power⟩
  | .comp c =>
    .comp ⟨c.numerator.map (fun n => ⟨env.siOf n.unit_type, n.power⟩),
      c.denominator.map (fun d => ⟨env.siOf d.unit_type, d.power⟩)⟩

/-- MeasurementUnit.from_descriptor (descriptors.py 339-366): a Dimension
yields its unit, a MeasurementUnit itself; anything else raises
UnitDescriptorTypeError. -/
def unitFromDescriptor : PyUnitDesc U → Option U
  | .unit u => some u
  | .dim d => some d.unit
  | .comp _ => none

/-- Dimension.from_descriptor (descriptors.py 820-838). -/
def dimensionFromDescriptor : PyUnitDesc U → Option (Dimension U)
  | .unit u => some ⟨u, 1⟩
  | .dim d => some d
  | .comp _ => none

/-- CompositeDimension.from_descriptor (descriptors.py 1510-1527). -/
def compositeFromDescriptor : PyUnitDesc U → Option (CompositeDimension U)
  | .comp c => some c
  | _ => none

/-- isinstance(descriptor, AliasMeasurementUnit): true exactly for a bare unit
instance whose family is an alias family. -/
def isAliasUnitDesc (env : UnitEnv F U) : PyUnitDesc U → Bool
  | .unit u => env.isAlias (env.familyOf u)
  | _ => false

/-- The error taxonomy of converter_types.py and
exceptions/units/{descriptors,converter_types}.py, plus a fuel marker for the
cyclic-alias recursions the Python code does not terminate on. -/
inductive ConvErr where
  | typeError
  | valueError
  | undefinedConverter
  | unitConversion
  | converterDependencies
  | unsupportedConverter
  | conversionFunction
  | descriptorType
  | attrError
  | fuelExhausted
deriving DecidableEq, Repr

/-- An affine conversion function t ↦ a * t + b: the shape of every conversion
function used by the relative converters in converters.py. -/
structure AffineFn where
  a : ℚ
  b : ℚ
deriving DecidableEq, Repr

def AffineFn.apply (f : AffineFn) (t : ℚ) : ℚ := f.a * t + f.b

/-- A converter class: one of the four strategy base classes of
converter_types.py together with its class attributes.  generic is the
generic_unit_descriptor attribute that register_converter sets. -/
inductive ConverterVal (F U : Type) where
  | absolute (generic : PyGeneric F) (referenceUnit : U) (conversionMap : List (U × ℚ))
  | relative (generic : PyGeneric F) (referenceUnit : U)
      (conversionMap : List (U × AffineFn)) (referenceConversionMap : List (U × AffineFn))
  | exponentiated (generic : PyGeneric F)
  | composite (generic : PyGeneric F)
deriving DecidableEq, Repr

/-- cls.generic_unit_descriptor = generic, as register_converter's wrapper sets. -/
def ConverterVal.setGeneric : ConverterVal F U → PyGeneric F → ConverterVal F U
  | .absolute _ r m, g => .absolute g r m
  | .relative _ r m rm, g => .relative g r m rm
  | .exponentiated _, g => .exponentiated g
  | .composite _, g => .composite g

/-- The module-level _converters dict: generic descriptor keys to converter
classes, newest first; lookup compares keys with Python ==. -/
abbrev Registry (F U : Type) := List (PyGeneric F × ConverterVal F U)

/-- _converters[generic] lookup (and the `generic in _converters` test). -/
def lookupConv [DecidableEq F] (reg : Registry F U) (g : PyGeneric F) :
    Option (ConverterVal F U) :=
  (List.find? (fun p => p.1.eqb g) reg).map (fun p => p.2)

/-- Argument passed to get_converter / register_converter: one of the three
generic shapes, or any other Python object. -/
inductive RegistryArg (F : Type) where
  | generic : PyGeneric F → RegistryArg F
  | notGeneric : RegistryArg F

/-- register_converter (converter_types.py 80-108): a type error when the
argument is not a generic unit descriptor, a value error when the exact
generic already has a converter; otherwise the converter is stored under the
generic and its generic_unit_descriptor attribute set. -/
def registerConverter [DecidableEq F] (reg : Registry F U) (arg : RegistryArg F)
    (cls : ConverterVal F U) : Except ConvErr (Registry F U) :=
  match arg with
  | .notGeneric => .error .typeError
  | .generic g =>
    if (lookupConv reg g).isSome then .error .valueError
    else .ok ((g, cls.setGeneric g) :: reg)

/-- The final dict access of get_converter: _converters[generic], a KeyError
becoming UndefinedConverterError. -/
def finalLookup [DecidableEq F] (reg : Registry F U) (g : PyGeneric F) :
    Except ConvErr (ConverterVal F U) :=
  match lookupConv reg g with
  | some c => .ok c
  | none => .error .undefinedConverter

/-- get_converter (converter_types.py 48-77).  A GenericDimension with power 1
redirects the lookup to the bare family; an unregistered GenericDimension with
power ≠ 1 synthesizes and registers a default ExponentiatedUnitConverter
subclass; an unregistered GenericCompositeDimension a default
CompositeUnitConverter subclass; then the dict is read.  Returns the result
together with the registry state after the call. -/
def getConverter [DecidableEq F] (reg : Registry F U) (arg : RegistryArg F) :
    Except ConvErr (ConverterVal F U) × Registry F U :=
  match arg with
  | .notGeneric => (.error .typeError, reg)
  | .generic g0 =>
    match g0 with
    | .dim d =>
      if d.power = 1 then (finalLookup reg (.unitType d.unit_type), reg)
      else if (lookupConv reg g0).isNone then
        match registerConverter reg (.generic g0) (.exponentiated g0) with
        | .ok reg1 => (finalLookup reg1 g0, reg1)
        | .error e => (.error e, reg)
      else (finalLookup reg g0, reg)
    | .comp _ =>
      if (lookupConv reg g0).isNone then
        match registerConverter reg (.generic g0) (.composite g0) with
        | .ok reg1 => (finalLookup reg1 g0, reg1)
        | .error e => (.error e, reg)
      else (finalLookup reg g0, reg)
    | .unitType _ => (finalLookup reg g0, reg)

/-- Python float exponentiation factor ** power, in the cases the rational
model represents exactly: an integer exponent.  A non-integer exponent yields
an irrational real in general and lies outside this model; no claim evaluates
one. -/
def ratPow (q e : ℚ) : ℚ := if e.den = 1 then q ^ e.num else 0

/-- Python assoc lookup in a conversion-map dict. -/
def lookupMap [DecidableEq U] (m : List (U × α)) (u : U) : Option α :=
  (List.find? (fun p => decide (p.1 = u)) m).map (fun p => p.2)

/-- The classmethod entry points of the converters (factor, convert), plus the
member loop of CompositeUnitConverter._get_numerator_factor and
_get_denominator_factor (converter_types.py 707-766), which recursively
resolves and applies one member converter per step. -/
inductive ConvOp (U : Type) where
  | factor (src dst : PyUnitDesc U)
  | convert (value : ℚ) (src dst : PyUnitDesc U)
  | memberLoop (members : List (Dimension U)) (inDenominator : Bool)
      (target : CompositeDimension U)

def ConverterVal.isAbsolute : ConverterVal F U → Bool
  | .absolute _ _ _ => true
  | _ => false

/-- CompositeUnitConverter._is_alias (converter_types.py 768-796): the target
descriptor is an alias of from_dimension when it is an alias unit instance, a
Dimension over one, or a composite with a member that from_dimension cannot
match by shape. -/
def isAliasOfComposite [DecidableEq F] (env : UnitEnv F U)
    (fc : CompositeDimension U) : PyUnitDesc U → Bool
  | .unit u => env.isAlias (env.familyOf u)
  | .dim d => env.isAlias (env.familyOf d.unit)
  | .comp cd =>
    cd.numerator.any (fun n => (fc.getNumerator env (.dim (n.toGeneric env))).isNone) ||
      cd.denominator.any
        (fun d => (fc.getDenominator env (.dim (d.toGeneric env))).isNone)

/-- CompositeUnitConverter._is_aliased (converter_types.py 798-811): some
member unit belongs to an alias family. -/
def hasAliasMember (env : UnitEnv F U) (c : CompositeDimension U) : Bool :=
  c.numerator.any (fun n => env.isAlias (env.familyOf n.unit)) ||
    c.denominator.any (fun d => env.isAlias (env.familyOf d.unit))

/-- RelativeUnitConverter._to_reference (converter_types.py 362-380): exact
isinstance check, then the conversion-map function is applied.  The functions
are affine and total, so the ConversionFunctionError wrapper of a raising
function has no reachable counterpart here. -/
def relativeToReference [DecidableEq F] [DecidableEq U] (env : UnitEnv F U)
    (g : PyGeneric F) (cmap : List (U × AffineFn)) (v : ℚ) (src : PyUnitDesc U) :
    Except ConvErr ℚ :=
  if !(src.isinstance env g) then .error .unitConversion
  else
    match unitFromDescriptor src with
    | none => .error .descriptorType
    | some u =>
      match lookupMap cmap u with
      | none => .error .unitConversion
      | some f => .ok (f.apply v)

/-- RelativeUnitConverter._from_reference (converter_types.py 382-400). -/
def relativeFromReference [DecidableEq F] [DecidableEq U] (env : UnitEnv F U)
    (g : PyGeneric F) (rcmap : List (U × AffineFn)) (v : ℚ) (dst : PyUnitDesc U) :
    Except ConvErr ℚ :=
  if !(dst.isinstance env g) then .error .unitConversion
  else
    match unitFromDescriptor dst with
    | none => .error .descriptorType
    | some u =>
      match lookupMap rcmap u with
      | none => .error .unitConversion
      | some f => .ok (f.apply v)

/-- The convert / get_factor dispatch over the four converter strategies
(converter_types.py 129-841), with the registry threaded through because
get_converter may register synthesized defaults.  Fuel is consumed at each
nested converter call; the Python code terminates on the acyclic alias
declarations it documents as a precondition, and enough fuel computes the
same result. -/
def runConv [DecidableEq F] [DecidableEq U] (env : UnitEnv F U) :
    Nat → Registry F U → ConverterVal F U → ConvOp U →
    Except ConvErr ℚ × Registry F U
  | 0, reg, _, _ => (.error .fuelExhausted, reg)
  | fuel + 1, reg, c, .convert v src dst =>
    match c with
    | .relative g _ cmap rcmap =>
      match relativeToReference env g cmap v src with
      | .error e => (.error e, reg)
      | .ok mid => (relativeFromReference env g rcmap mid dst, reg)
    | _ =>
      match runConv env fuel reg c (.factor src dst) with
      | (.ok f, reg1) => (.ok (v * f), reg1)
      | (.error e, reg1) => (.error e, reg1)
  | fuel + 1, reg, c, .factor src dst =>
    match c with
    | .relative _ _ _ _ => (.error .attrError, reg)
    | .absolute g _ cmap =>
      if !(src.isinstanceEquivalent env (fuel + 1) g) then (.error .unitConversion, reg)
      else if !(dst.isinstanceEquivalent env (fuel + 1) g) then
        (.error .unitConversion, reg)
      else
        match unitFromDescriptor src with
        | none => (.error .descriptorType, reg)
        | some fu =>
          if env.isAlias (env.familyOf fu) && !(isAliasUnitDesc env dst) then
            match runConv env fuel reg c
                (.factor (.unit fu) (.unit (unitSi env fu))) with
            | (.error e, reg1) => (.error e, reg1)
            | (.ok step1, reg1) =>
              match getConverter reg1 (.generic (dst.toGeneric env)) with
              | (.error e, reg2) => (.error e, reg2)
              | (.ok conv, reg2) =>
                match runConv env fuel reg2 conv
                    (.convert 1 (PyGeneric.toSi env (dst.toGeneric env)) dst) with
                | (.error e, reg3) => (.error e, reg3)
                | (.ok step3, reg3) => (.ok (step1 * step3), reg3)
          else
            match unitFromDescriptor dst with
            | none => (.error .descriptorType, reg)
            | some tu =>
              match lookupMap cmap fu with
              | none => (.error .unitConversion, reg)
              | some qf =>
                match lookupMap cmap tu with
                | none => (.error .unitConversion, reg)
                | some qt => (.ok (1 / qf * qt), reg)
    | .exponentiated g =>
      if !(src.isinstanceEquivalent env (fuel + 1) g) then (.error .unitConversion, reg)
      else if !(dst.isinstanceEquivalent env (fuel + 1) g) then
        (.error .unitConversion, reg)
      else
        match dimensionFromDescriptor src with
        | none => (.error .descriptorType, reg)
        | some fd =>
          if !(dst.isinstance env (src.toGeneric env)) && isAliasUnitDesc env dst then
            match runConv env fuel reg c (.factor (.dim fd) (.dim (fd.si env))) with
            | (.error e, reg1) => (.error e, reg1)
            | (.ok step1, reg1) =>
              match getConverter reg1 (.generic (dst.toGeneric env)) with
              | (.error e, reg2) => (.error e, reg2)
              | (.ok conv, reg2) =>
                match runConv env fuel reg2 conv
                    (.convert 1 (PyGeneric.toSi env (dst.toGeneric env)) dst) with
                | (.error e, reg3) => (.error e, reg3)
                | (.ok step3, reg3) => (.ok (step1 * step3), reg3)
          else
            match dimensionFromDescriptor dst with
            | none => (.error .descriptorType, reg)
            | some td =>
              match g with
              | .dim gd =>
                match getConverter reg (.generic (.unitType gd.unit_type)) with
                | (.error .undefinedConverter, reg1) =>
                  (.error .converterDependencies, reg1)
                | (.error e, reg1) => (.error e, reg1)
                | (.ok conv, reg1) =>
                  if !conv.isAbsolute then (.error .unsupportedConverter, reg1)
                  else
                    match runConv env fuel reg1 conv
                        (.factor (.unit fd.unit) (.unit td.unit)) with
                    | (.error e, reg2) => (.error e, reg2)
                    | (.ok f, reg2) => (.ok (ratPow f td.power), reg2)
              | _ => (.error .attrError, reg)
    | .composite g =>
      if !(src.isinstanceEquivalent env (fuel + 1) g) then (.error .unitConversion, reg)
      else if !(dst.isinstanceEquivalent env (fuel + 1) g) then
        (.error .unitConversion, reg)
      else
        match compositeFromDescriptor src with
        | none => (.error .descriptorType, reg)
        | some fc =>
          if !(dst.isinstance env (src.toGeneric env)) &&
              (isAliasOfComposite env fc dst || hasAliasMember env fc) then
            match runConv env fuel reg c (.factor (.comp fc) (.comp (fc.si env))) with
            | (.error e, reg1) => (.error e, reg1)
            | (.ok step1, reg1) =>
              match getConverter reg1 (.generic (dst.toGeneric env)) with
              | (.error e, reg2) => (.error e, reg2)
              | (.ok conv, reg2) =>
                match runConv env fuel reg2 conv
                    (.convert 1 (PyGeneric.toSi env (dst.toGeneric env)) dst) with
                | (.error e, reg3) => (.error e, reg3)
                | (.ok step3, reg3) => (.ok (step1 * step3), reg3)
          else
            match compositeFromDescriptor dst with
            | none => (.error .descriptorType, reg)
            | some tc =>
              match runConv env fuel reg c (.memberLoop fc.numerator false tc) with
              | (.error e, reg1) => (.error e, reg1)
              | (.ok nf, reg1) =>
                match runConv env fuel reg1 c (.memberLoop fc.denominator true tc) with
                | (.error e, reg2) => (.error e, reg2)
                | (.ok df, reg2) => (.ok (nf / df), reg2)
  | fuel + 1, reg, c, .memberLoop members inDen tc =>
    match members with
    | [] => (.ok 1, reg)
    | d :: rest =>
      let matched :=
        if inDen then tc.getDenominator env (.dim (d.toGeneric env))
        else tc.getNumerator env (.dim (d.toGeneric env))
      match matched with
      | none => (.error .unitConversion, reg)
      | some td =>
        match getConverter reg (.generic (.unitType (env.familyOf d.unit))) with
        | (.error .undefinedConverter, reg1) => (.error .converterDependencies, reg1)
        | (.error e, reg1) => (.error e, reg1)
        | (.ok conv, reg1) =>
          if !conv.isAbsolute then (.error .unsupportedConverter, reg1)
          else
            match runConv env fuel reg1 conv
                (.factor (.unit d.unit) (.unit td.unit)) with
            | (.error e, reg2) => (.error e, reg2)
            | (.ok f, reg2) =>
              match runConv env fuel reg2 c (.memberLoop rest inDen tc) with
              | (.error e, reg3) => (.error e, reg3)
              | (.ok acc, reg3) => (.ok (ratPow f d.power * acc), reg3)

instance [DecidableEq ε] [DecidableEq α] : DecidableEq (Except ε α)
  | .ok a, .ok b =>
    if h : a = b then .isTrue (congrArg Except.ok h)
    else .isFalse (fun hh => h (Except.ok.inj hh))
  | .ok _, .error _ => .isFalse (fun hh => Except.noConfusion hh)
  | .error _, .ok _ => .isFalse (fun hh => Except.noConfusion hh)
  | .error a, .error b =>
    if h : a = b then .isTrue (congrArg Except.error h)
    else .isFalse (fun hh => h (Except.error.inj hh))

/-- Python lists are mutable heap objects: a list object lives at an address
in a store and descriptor objects hold addresses.  This narrow heap model is
what the mutation claims about simplify()/simplified()/analyse()/analysed()
need. -/
structure ListStore (α : Type) where
  cells : List (List α)

def ListStore.read (s : ListStore α) (r : Nat) : List α := s.cells.getD r []

def ListStore.write (s : ListStore α) (r : Nat) (v : List α) : ListStore α :=
  ⟨s.cells.set r v⟩

def ListStore.alloc (s : ListStore α) (v : List α) : Nat × ListStore α :=
  (s.cells.length, ⟨s.cells ++ [v]⟩)

/-- A GenericCompositeDimension object: its dataclass fields hold references
to its numerator and denominator list objects. -/
structure CompositeObj where
  numRef : Nat
  denRef : Nat
deriving DecidableEq, Repr

/-- dataclasses.replace(self): a new object whose fields hold the same two
list references — the list objects themselves are not copied. -/
def replaceObj (o : CompositeObj) : CompositeObj := ⟨o.numRef, o.denRef⟩

/-- GenericCompositeDimension.simplify() on an object: reads the two lists,
computes the simplified pair, and rebinds the object's attributes to freshly
allocated result lists (self.numerator = numerator at descriptors.py
1162-1163); the old list objects are never written. -/
def simplifyObj [DecidableEq F] (s : ListStore (GenericDimension F))
    (o : CompositeObj) : ListStore (GenericDimension F) × CompositeObj :=
  let c := GenericCompositeDimension.simplify ⟨s.read o.numRef, s.read o.denRef⟩
  let an := s.alloc c.numerator
  let ad := an.2.alloc c.denominator
  (ad.2, ⟨an.1, ad.1⟩)

/-- GenericCompositeDimension.simplified() (descriptors.py 1165-1192):
replace(self), then simplify the copy; returns the new store and the copy. -/
def simplifiedObj [DecidableEq F] (s : ListStore (GenericDimension F))
    (o : CompositeObj) : ListStore (GenericDimension F) × CompositeObj :=
  simplifyObj s (replaceObj o)

/-- GenericCompositeDimension.analyse() on an object (descriptors.py
1194-1236): the loops mutate the two list objects in place through
extend/append/remove, so the cells behind the object's references are
overwritten with the analysed lists while the references never change.
Assumes the two references are distinct, as they are for every composite the
library constructs. -/
def analyseObj [DecidableEq F] (env : UnitEnv F U) (fuel : Nat)
    (s : ListStore (GenericDimension F)) (o : CompositeObj) :
    ListStore (GenericDimension F) × CompositeObj :=
  let c := GenericCompositeDimension.analyse env fuel
    ⟨s.read o.numRef, s.read o.denRef⟩
  ((s.write o.numRef c.numerator).write o.denRef c.denominator, o)

/-- GenericCompositeDimension.analysed() (descriptors.py 1238-1261):
replace(self), then analyse the copy — which shares both list objects with the
receiver. -/
def analysedObj [DecidableEq F] (env : UnitEnv F U) (fuel : Nat)
    (s : ListStore (GenericDimension F)) (o : CompositeObj) :
    ListStore (GenericDimension F) × CompositeObj :=
  analyseObj env fuel s (replaceObj o)

/-- A compact family universe mirroring units.py (length, time, mass, the
pressure alias, the non-dimensional family) plus the AreaUnit alias of the
AliasMeasurementUnit docstring. -/
inductive Fam where
  | length
  | time
  | mass
  | pressure
  | area
  | nd
deriving DecidableEq, Repr

/-- Unit instances of the families in Fam, as in units.py. -/
inductive Un where
  | meter
  | centiMeter
  | inch
  | second
  | minute
  | kilogram
  | pascalU
  | bar
  | ndUnit
deriving DecidableEq, Repr

def famOf : Un → Fam
  | .meter | .centiMeter | .inch => .length
  | .second | .minute => .time
  | .kilogram => .mass
  | .pascalU | .bar => .pressure
  | .ndUnit => .nd

def siOfFam : Fam → Un
  | .length => .meter
  | .time => .second
  | .mass => .kilogram
  | .pressure => .pascalU
  | .area => .meter
  | .nd => .ndUnit

def isAliasFam : Fam → Bool
  | .pressure | .area => true
  | _ => false

/-- PressureUnit aliases MassUnit / LengthUnit / TimeUnit**2 (units.py
147-161); AreaUnit aliases LengthUnit**2 (the AliasMeasurementUnit docstring,
descriptors.py 399-403). -/
def aliasedOfFam : Fam → PyGeneric Fam
  | .pressure => .comp ⟨[⟨.mass, 1⟩], [⟨.length, 1⟩, ⟨.time, 2⟩]⟩
  | .area => .dim ⟨.length, 2⟩
  | _ => .comp ⟨[], []⟩

def isNonDimFam : Fam → Bool
  | .nd => true
  | _ => false

/-- The environment built from the declarations above. -/
def envL : UnitEnv Fam Un := ⟨famOf, siOfFam, isAliasFam, aliasedOfFam, isNonDimFam⟩

/-- The LengthUnit converter of the converter_types.py doctests: reference
INCH, with INCH → 1 and CENTI_METER → 2.54. -/
def lengthConverter : ConverterVal Fam Un :=
  .absolute (.unitType .length) .inch [(.inch, 1), (.centiMeter, 127/50)]

/-- The TimeUnit converter of the converter_types.py doctests: reference
MINUTE, with MINUTE → 1 and SECOND → 60. -/
def timeConverter : ConverterVal Fam Un :=
  .absolute (.unitType .time) .minute [(.minute, 1), (.second, 60)]

def velocityGeneric : PyGeneric Fam := .comp ⟨[⟨.length, 1⟩], [⟨.time, 1⟩]⟩

/-- The VelocityUnitConverter of the converter_types.py doctests, registered
for LengthUnit / TimeUnit. -/
def velocityConverter : ConverterVal Fam Un := .composite velocityGeneric

/-- A registry holding the three doctest converters. -/
def regLT : Registry Fam Un :=
  [(.unitType Fam.length, lengthConverter), (.unitType Fam.time, timeConverter),
    (velocityGeneric, velocityConverter)]

def inchPerSecond : CompositeDimension Un := ⟨[⟨.inch, 1⟩], [⟨.second, 1⟩]⟩

def cmPerSecond : CompositeDimension Un := ⟨[⟨.centiMeter, 1⟩], [⟨.second, 1⟩]⟩

/-- The total value a pair list holds at a key: applied to a composite's
expPairs it is the net exponent of a family or unit — numerator powers added,
denominator powers subtracted — the quantity simplify's dict accumulates. -/
def sumKey [DecidableEq κ] (l : List (κ × ℚ)) (k : κ) : ℚ :=
  ((l.filter (fun p => decide (p.1 = k))).map Prod.snd).sum

theorem sumKey_nil [DecidableEq κ] (k : κ) : sumKey ([] : List (κ × ℚ)) k = 0 := rfl

theorem sumKey_cons [DecidableEq κ] (k0 k : κ) (q0 : ℚ) (l : List (κ × ℚ)) :
    sumKey ((k0, q0) :: l) k = (if k0 = k then q0 else 0) + sumKey l k := by
  by_cases h : k0 = k <;> simp [sumKey, List.filter_cons, h]

theorem sumKey_append [DecidableEq κ] (a b : List (κ × ℚ)) (k : κ) :
    sumKey (a ++ b) k = sumKey a k + sumKey b k := by
  simp [sumKey, List.filter_append]

theorem sumKey_zero_of_not_mem [DecidableEq κ] :
    ∀ (l : List (κ × ℚ)) (k : κ), k ∉ l.map Prod.fst → sumKey l k = 0
  | [], k, _ => rfl
  | (k0, q0) :: l, k, h => by
    have hk : ¬k0 = k := fun e => h (by simp [e])
    have ht : k ∉ l.map Prod.fst := fun e => h (by simp [e])
    rw [sumKey_cons, if_neg hk, sumKey_zero_of_not_mem l k ht, zero_add]

theorem addExp_sumKey [DecidableEq κ] :
    ∀ (l : List (κ × ℚ)) (k : κ) (q : ℚ) (j : κ),
      sumKey (addExp l k q) j = sumKey l j + (if k = j then q else 0)
  | [], k, q, j => by simp [addExp, sumKey_cons, sumKey_nil]
  | (k0, q0) :: l, k, q, j => by
    by_cases h : k0 = k
    · subst h
      rw [addExp, if_pos rfl, sumKey_cons, sumKey_cons]
      by_cases hj : k0 = j <;> simp [hj] <;> ring
    · rw [addExp, if_neg h, sumKey_cons, sumKey_cons, addExp_sumKey l k q j]
      ring

theorem addExp_keys [DecidableEq κ] :
    ∀ (l : List (κ × ℚ)) (k : κ) (q : ℚ),
      (addExp l k q).map Prod.fst =
        if k ∈ l.map Prod.fst then l.map Prod.fst else l.map Prod.fst ++ [k]
  | [], k, q => by simp [addExp]
  | (k0, q0) :: l, k, q => by
    by_cases h : k0 = k
    · subst h
      simp [addExp]
    · rw [addExp, if_neg h]
      by_cases hm : k ∈ l.map Prod.fst
      · simp [addExp_keys l k q, hm, Ne.symm h]
      · simp [addExp_keys l k q, hm, Ne.symm h]

theorem addExp_keys_nodup [DecidableEq κ] (l : List (κ × ℚ)) (k : κ) (q : ℚ)
    (h : (l.map Prod.fst).Nodup) : ((addExp l k q).map Prod.fst).Nodup := by
  rw [addExp_keys]
  by_cases hm : k ∈ l.map Prod.fst
  · simpa [hm] using h
  · rw [if_neg hm]
    exact h.append (List.nodup_singleton k)
      (fun a ha hb => hm ((List.mem_singleton.mp hb) ▸ ha))

theorem addExp_mem_keys [DecidableEq κ] (l : List (κ × ℚ)) (k j : κ) (q : ℚ) :
    j ∈ (addExp l k q).map Prod.fst ↔ j ∈ l.map Prod.fst ∨ j = k := by
  rw [addExp_keys]
  by_cases hm : k ∈ l.map Prod.fst
  · simp only [if_pos hm]
    exact ⟨Or.inl, fun h => h.elim id (fun hj => hj ▸ hm)⟩
  · simp [hm]

theorem foldl_addExp_sumKey [DecidableEq κ] :
    ∀ (ps acc : List (κ × ℚ)) (j : κ),
      sumKey (ps.foldl (fun l p => addExp l p.1 p.2) acc) j =
        sumKey acc j + sumKey ps j
  | [], acc, j => by simp [sumKey_nil]
  | p :: ps, acc, j => by
    rw [List.foldl_cons, foldl_addExp_sumKey ps _ j, addExp_sumKey,
      sumKey_cons]
    cases p with
    | mk k q => simp only [] ; ring

theorem buildExps_sumKey [DecidableEq κ] (ps : List (κ × ℚ)) (j : κ) :
    sumKey (buildExps ps) j = sumKey ps j := by
  have := foldl_addExp_sumKey ps [] j
  rwa [sumKey_nil, zero_add] at this

theorem foldl_addExp_nodup [DecidableEq κ] :
    ∀ (ps acc : List (κ × ℚ)), (acc.map Prod.fst).Nodup →
      (((ps.foldl (fun l p => addExp l p.1 p.2) acc).map Prod.fst)).Nodup
  | [], acc, h => h
  | p :: ps, acc, h => by
    rw [List.foldl_cons]
    exact foldl_addExp_nodup ps _ (addExp_keys_nodup acc p.1 p.2 h)

theorem buildExps_keys_nodup [DecidableEq κ] (ps : List (κ × ℚ)) :
    ((buildExps ps).map Prod.fst).Nodup :=
  foldl_addExp_nodup ps [] List.nodup_nil

theorem foldl_addExp_mem_keys [DecidableEq κ] :
    ∀ (ps acc : List (κ × ℚ)) (j : κ),
      (j ∈ (ps.foldl (fun l p => addExp l p.1 p.2) acc).map Prod.fst ↔
        j ∈ acc.map Prod.fst ∨ j ∈ ps.map Prod.fst)
  | [], acc, j => by simp
  | p :: ps, acc, j => by
    rw [List.foldl_cons]
    rw [foldl_addExp_mem_keys ps _ j, addExp_mem_keys]
    simp only [List.map_cons, List.mem_cons]
    tauto

theorem buildExps_mem_keys [DecidableEq κ] (ps : List (κ × ℚ)) (j : κ) :
    j ∈ (buildExps ps).map Prod.fst ↔ j ∈ ps.map Prod.fst := by
  have := foldl_addExp_mem_keys ps [] j
  simpa using this

/-- In a pair list with distinct keys, membership of (k, v) is exactly: k is a
key and the value at k is v. -/
theorem mem_iff_sumKey [DecidableEq κ] :
    ∀ (l : List (κ × ℚ)), (l.map Prod.fst).Nodup → ∀ (k : κ) (v : ℚ),
      ((k, v) ∈ l ↔ k ∈ l.map Prod.fst ∧ sumKey l k = v)
  | [], _, k, v => by simp
  | (k0, v0) :: l, h, k, v => by
    rw [List.map_cons, List.nodup_cons] at h
    obtain ⟨h0, h1⟩ := h
    by_cases hk : k0 = k
    · subst hk
      have hz : sumKey l k0 = 0 := sumKey_zero_of_not_mem l k0 h0
      have hnot : (k0, v) ∉ l := fun hm => h0 (List.mem_map.mpr ⟨(k0, v), hm, rfl⟩)
      simp [sumKey_cons, hz, hnot, eq_comm]
    · have ih := mem_iff_sumKey l h1 k v
      have hne : (k, v) ≠ (k0, v0) := fun e => hk (by cases e; rfl)
      simp only [List.mem_cons, List.map_cons, sumKey_cons, if_neg hk, zero_add]
      constructor
      · intro hm
        rcases hm with hm | hm
        · exact absurd hm.symm (fun e => hne e.symm)
        · have := ih.mp hm
          exact ⟨Or.inr this.1, this.2⟩
      · intro hm
        rcases hm.1 with he | hmem
        · exact absurd he (Ne.symm hk)
        · exact Or.inr (ih.mpr ⟨hmem, hm.2⟩)

theorem sumKey_negSnd [DecidableEq κ] :
    ∀ (l : List (κ × ℚ)) (k : κ),
      sumKey (l.map (fun p => (p.1, -p.2))) k = -sumKey l k
  | [], k => by simp [sumKey_nil]
  | p :: l, k => by
    rw [List.map_cons, sumKey_cons]
    cases p with
    | mk k0 q0 =>
      rw [sumKey_cons, sumKey_negSnd l k]
      by_cases h : k0 = k <;> simp [h] <;> ring

/-- The net exponent of a family in a generic composite: the sum of its
numerator powers minus the sum of its denominator powers. -/
def GenericCompositeDimension.netExp [DecidableEq F]
    (c : GenericCompositeDimension F) (f : F) : ℚ :=
  sumKey (c.numerator.map (fun n => (n.unit_type, n.power))) f -
    sumKey (c.denominator.map (fun d => (d.unit_type, d.power))) f

/-- The net exponent of a unit instance in a concrete composite. -/
def CompositeDimension.netExp [DecidableEq U]
    (c : CompositeDimension U) (u : U) : ℚ :=
  sumKey (c.numerator.map (fun n => (n.unit, n.power))) u -
    sumKey (c.denominator.map (fun d => (d.unit, d.power))) u

theorem gcd_expPairs_sumKey [DecidableEq F] (c : GenericCompositeDimension F)
    (f : F) : sumKey c.expPairs f = c.netExp f := by
  unfold GenericCompositeDimension.expPairs GenericCompositeDimension.netExp
  rw [sumKey_append]
  have hneg : c.denominator.map (fun d => (d.unit_type, -d.power)) =
      (c.denominator.map (fun d => (d.unit_type, d.power))).map
        (fun p => (p.1, -p.2)) := by
    rw [List.map_map]
    rfl
  rw [hneg, sumKey_negSnd]
  ring

theorem cd_expPairs_sumKey [DecidableEq U] (c : CompositeDimension U)
    (u : U) : sumKey c.expPairs u = c.netExp u := by
  unfold CompositeDimension.expPairs CompositeDimension.netExp
  rw [sumKey_append]
  have hneg : c.denominator.map (fun d => (d.unit, -d.power)) =
      (c.denominator.map (fun d => (d.unit, d.power))).map
        (fun p => (p.1, -p.2)) := by
    rw [List.map_map]
    rfl
  rw [hneg, sumKey_negSnd]
  ring

theorem buildExps_netExp [DecidableEq F] (c : GenericCompositeDimension F)
    (f : F) : sumKey (buildExps c.expPairs) f = c.netExp f := by
  rw [buildExps_sumKey, gcd_expPairs_sumKey]

theorem buildExps_netExpC [DecidableEq U] (c : CompositeDimension U)
    (u : U) : sumKey (buildExps c.expPairs) u = c.netExp u := by
  rw [buildExps_sumKey, cd_expPairs_sumKey]

/-- A family appearing in neither list has net exponent zero. -/
theorem netExp_eq_zero_of_not_key [DecidableEq F]
    (c : GenericCompositeDimension F) (f : F)
    (h : f ∉ (buildExps c.expPairs).map Prod.fst) : c.netExp f = 0 := by
  rw [← buildExps_netExp]
  exact sumKey_zero_of_not_mem _ f h

theorem netExpC_eq_zero_of_not_key [DecidableEq U]
    (c : CompositeDimension U) (u : U)
    (h : u ∉ (buildExps c.expPairs).map Prod.fst) : c.netExp u = 0 := by
  rw [← buildExps_netExpC]
  exact sumKey_zero_of_not_mem _ u h

/-- Membership characterization of GenericCompositeDimension.simplify, the
numerator side: a family sits in the output numerator with power p exactly
when its net input exponent is p and p > 0.  (In particular an entry whose
net exponent is zero is removed, and matching factors merge by real addition
of exponents.) -/
theorem gcd_simplify_mem_num [DecidableEq F] (c : GenericCompositeDimension F)
    (f : F) (p : ℚ) :
    (⟨f, p⟩ ∈ c.simplify.numerator ↔ c.netExp f = p ∧ 0 < p) := by
  show (⟨f, p⟩ ∈ ((buildExps c.expPairs).filter
      (fun ke => decide (0 < ke.2))).map
        (fun ke => GenericDimension.pow ⟨ke.1, 1⟩ ke.2) ↔ _)
  rw [List.mem_map]
  constructor
  · rintro ⟨ke, hke, heq⟩
    rw [List.mem_filter] at hke
    obtain ⟨hmem, hpos⟩ := hke
    rw [decide_eq_true_iff] at hpos
    unfold GenericDimension.pow at heq
    rw [GenericDimension.mk.injEq] at heq
    obtain ⟨hf, hp⟩ := heq
    rw [one_mul] at hp
    have hke2 : ke = (f, p) := Prod.ext hf hp
    subst hke2
    have := (mem_iff_sumKey _ (buildExps_keys_nodup c.expPairs) f p).mp hmem
    exact ⟨by rw [← buildExps_netExp]; exact this.2, hp ▸ hpos⟩
  · rintro ⟨hnet, hpos⟩
    refine ⟨(f, p), ?_, ?_⟩
    · rw [List.mem_filter]
      refine ⟨?_, by simpa using hpos⟩
      rw [mem_iff_sumKey _ (buildExps_keys_nodup c.expPairs) f p]
      refine ⟨?_, by rw [buildExps_netExp]; exact hnet⟩
      by_contra hnk
      rw [netExp_eq_zero_of_not_key c f hnk] at hnet
      rw [← hnet] at hpos
      exact lt_irrefl 0 hpos
    · unfold GenericDimension.pow
      rw [GenericDimension.mk.injEq]
      exact ⟨rfl, one_mul p⟩

/-- Membership characterization of GenericCompositeDimension.simplify, the
denominator side. -/
theorem gcd_simplify_mem_den [DecidableEq F] (c : GenericCompositeDimension F)
    (f : F) (p : ℚ) :
    (⟨f, p⟩ ∈ c.simplify.denominator ↔ c.netExp f = -p ∧ 0 < p) := by
  show (⟨f, p⟩ ∈ ((buildExps c.expPairs).filter
      (fun ke => decide (ke.2 < 0))).map
        (fun ke => GenericDimension.pow ⟨ke.1, 1⟩ |ke.2|) ↔ _)
  rw [List.mem_map]
  constructor
  · rintro ⟨ke, hke, heq⟩
    rw [List.mem_filter] at hke
    obtain ⟨hmem, hneg⟩ := hke
    rw [decide_eq_true_iff] at hneg
    unfold GenericDimension.pow at heq
    rw [GenericDimension.mk.injEq] at heq
    obtain ⟨hf, hp⟩ := heq
    rw [one_mul, abs_of_neg hneg] at hp
    have hke2 : ke = (f, -p) := Prod.ext hf (by rw [← hp, neg_neg])
    subst hke2
    have := (mem_iff_sumKey _ (buildExps_keys_nodup c.expPairs) f (-p)).mp hmem
    refine ⟨by rw [← buildExps_netExp]; exact this.2, ?_⟩
    simp only [] at hneg
    linarith
  · rintro ⟨hnet, hpos⟩
    have hneg : (-p : ℚ) < 0 := by linarith
    refine ⟨(f, -p), ?_, ?_⟩
    · rw [List.mem_filter]
      refine ⟨?_, by simpa using hneg⟩
      rw [mem_iff_sumKey _ (buildExps_keys_nodup c.expPairs) f (-p)]
      refine ⟨?_, by rw [buildExps_netExp]; exact hnet⟩
      by_contra hnk
      rw [netExp_eq_zero_of_not_key c f hnk] at hnet
      have : p = 0 := by linarith
      rw [this] at hpos
      exact lt_irrefl 0 hpos
    · unfold GenericDimension.pow
      rw [GenericDimension.mk.injEq]
      exact ⟨rfl, by rw [one_mul, abs_of_neg hneg, neg_neg]⟩

/-- Membership characterization of CompositeDimension.simplify, numerator
side: additionally to the generic rule, a non-dimensional unit never appears. -/
theorem cd_simplify_mem_num [DecidableEq U] (env : UnitEnv F U)
    (c : CompositeDimension U) (u : U) (p : ℚ) :
    (⟨u, p⟩ ∈ (c.simplify env).numerator ↔
      env.isNonDim (env.familyOf u) = false ∧ c.netExp u = p ∧ 0 < p) := by
  show (⟨u, p⟩ ∈ (((buildExps c.expPairs).filter
      (fun ke => !(env.isNonDim (env.familyOf ke.1)))).filter
        (fun ke => decide (0 < ke.2))).map
          (fun ke => Dimension.pow env ⟨ke.1, 1⟩ ke.2) ↔ _)
  rw [List.mem_map]
  constructor
  · rintro ⟨ke, hke, heq⟩
    rw [List.mem_filter] at hke
    obtain ⟨hke1, hpos⟩ := hke
    rw [List.mem_filter] at hke1
    obtain ⟨hmem, hnd⟩ := hke1
    rw [decide_eq_true_iff] at hpos
    rw [Bool.not_eq_true'] at hnd
    rw [Dimension.pow, if_neg (by rw [hnd]; exact Bool.false_ne_true)] at heq
    rw [Dimension.mk.injEq] at heq
    obtain ⟨hu, hp⟩ := heq
    rw [one_mul] at hp
    have hke2 : ke = (u, p) := Prod.ext hu hp
    subst hke2
    have := (mem_iff_sumKey _ (buildExps_keys_nodup c.expPairs) u p).mp hmem
    exact ⟨hu ▸ hnd, by rw [← buildExps_netExpC]; exact this.2, hp ▸ hpos⟩
  · rintro ⟨hnd, hnet, hpos⟩
    refine ⟨(u, p), ?_, ?_⟩
    · rw [List.mem_filter]
      refine ⟨?_, by simpa using hpos⟩
      rw [List.mem_filter]
      refine ⟨?_, by rw [hnd]; rfl⟩
      rw [mem_iff_sumKey _ (buildExps_keys_nodup c.expPairs) u p]
      refine ⟨?_, by rw [buildExps_netExpC]; exact hnet⟩
      by_contra hnk
      rw [netExpC_eq_zero_of_not_key c u hnk] at hnet
      rw [← hnet] at hpos
      exact lt_irrefl 0 hpos
    · rw [Dimension.pow, if_neg (by rw [hnd]; exact Bool.false_ne_true)]
      rw [Dimension.mk.injEq]
      exact ⟨rfl, one_mul p⟩

/-- Membership characterization of CompositeDimension.simplify, denominator
side. -/
theorem cd_simplify_mem_den [DecidableEq U] (env : UnitEnv F U)
    (c : CompositeDimension U) (u : U) (p : ℚ) :
    (⟨u, p⟩ ∈ (c.simplify env).denominator ↔
      env.isNonDim (env.familyOf u) = false ∧ c.netExp u = -p ∧ 0 < p) := by
  show (⟨u, p⟩ ∈ (((buildExps c.expPairs).filter
      (fun ke => !(env.isNonDim (env.familyOf ke.1)))).filter
        (fun ke => decide (ke.2 < 0))).map
          (fun ke => Dimension.pow env ⟨ke.1, 1⟩ |ke.2|) ↔ _)
  rw [List.mem_map]
  constructor
  · rintro ⟨ke, hke, heq⟩
    rw [List.mem_filter] at hke
    obtain ⟨hke1, hneg⟩ := hke
    rw [List.mem_filter] at hke1
    obtain ⟨hmem, hnd⟩ := hke1
    rw [decide_eq_true_iff] at hneg
    rw [Bool.not_eq_true'] at hnd
    rw [Dimension.pow, if_neg (by rw [hnd]; exact Bool.false_ne_true)] at heq
    rw [Dimension.mk.injEq] at heq
    obtain ⟨hu, hp⟩ := heq
    rw [one_mul, abs_of_neg hneg] at hp
    have hke2 : ke = (u, -p) := Prod.ext hu (by rw [← hp, neg_neg])
    subst hke2
    have := (mem_iff_sumKey _ (buildExps_keys_nodup c.expPairs) u (-p)).mp hmem
    refine ⟨hu ▸ hnd, by rw [← buildExps_netExpC]; exact this.2, ?_⟩
    simp only [] at hneg
    linarith
  · rintro ⟨hnd, hnet, hpos⟩
    have hneg : (-p : ℚ) < 0 := by linarith
    refine ⟨(u, -p), ?_, ?_⟩
    · rw [List.mem_filter]
      refine ⟨?_, by simpa using hneg⟩
      rw [List.mem_filter]
      refine ⟨?_, by rw [hnd]; rfl⟩
      rw [mem_iff_sumKey _ (buildExps_keys_nodup c.expPairs) u (-p)]
      refine ⟨?_, by rw [buildExps_netExpC]; exact hnet⟩
      by_contra hnk
      rw [netExpC_eq_zero_of_not_key c u hnk] at hnet
      have hp0 : p = 0 := by linarith
      rw [hp0] at hpos
      exact lt_irrefl 0 hpos
    · rw [Dimension.pow, if_neg (by rw [hnd]; exact Bool.false_ne_true)]
      rw [Dimension.mk.injEq]
      exact ⟨rfl, by rw [one_mul, abs_of_neg hneg, neg_neg]⟩

/-- The simplified generic composite mentions each family at most once per
side. -/
theorem gcd_simplify_keys_nodup_num [DecidableEq F]
    (c : GenericCompositeDimension F) :
    ((c.simplify).numerator.map GenericDimension.unit_type).Nodup := by
  show ((((buildExps c.expPairs).filter (fun ke => decide (0 < ke.2))).map
    (fun ke => GenericDimension.pow ⟨ke.1, 1⟩ ke.2)).map
      GenericDimension.unit_type).Nodup
  rw [List.map_map]
  have he : (GenericDimension.unit_type ∘
      fun (ke : F × ℚ) => GenericDimension.pow ⟨ke.1, 1⟩ ke.2) = Prod.fst :=
    funext fun ke => rfl
  rw [he]
  exact ((List.filter_sublist _).map Prod.fst).nodup (buildExps_keys_nodup c.expPairs)

theorem gcd_simplify_keys_nodup_den [DecidableEq F]
    (c : GenericCompositeDimension F) :
    ((c.simplify).denominator.map GenericDimension.unit_type).Nodup := by
  show ((((buildExps c.expPairs).filter (fun ke => decide (ke.2 < 0))).map
    (fun ke => GenericDimension.pow ⟨ke.1, 1⟩ |ke.2|)).map
      GenericDimension.unit_type).Nodup
  rw [List.map_map]
  have he : (GenericDimension.unit_type ∘
      fun (ke : F × ℚ) => GenericDimension.pow ⟨ke.1, 1⟩ |ke.2|) = Prod.fst :=
    funext fun ke => rfl
  rw [he]
  exact ((List.filter_sublist _).map Prod.fst).nodup (buildExps_keys_nodup c.expPairs)

theorem cd_simplify_keys_nodup_num [DecidableEq U] (env : UnitEnv F U)
    (c : CompositeDimension U) :
    ((c.simplify env).numerator.map Dimension.unit).Nodup := by
  show (((((buildExps c.expPairs).filter
      (fun ke => !(env.isNonDim (env.familyOf ke.1)))).filter
        (fun ke => decide (0 < ke.2))).map
          (fun ke => Dimension.pow env ⟨ke.1, 1⟩ ke.2)).map Dimension.unit).Nodup
  rw [List.map_map]
  have he : (Dimension.unit ∘
      fun (ke : U × ℚ) => Dimension.pow env ⟨ke.1, 1⟩ ke.2) = Prod.fst := by
    funext ke
    show (Dimension.pow env ⟨ke.1, 1⟩ ke.2).unit = ke.1
    rw [Dimension.pow]
    by_cases h : env.isNonDim (env.familyOf ke.1) = true <;> simp [h]
  rw [he]
  exact (((List.filter_sublist _).trans (List.filter_sublist _)).map Prod.fst).nodup
    (buildExps_keys_nodup c.expPairs)

theorem cd_simplify_keys_nodup_den [DecidableEq U] (env : UnitEnv F U)
    (c : CompositeDimension U) :
    ((c.simplify env).denominator.map Dimension.unit).Nodup := by
  show (((((buildExps c.expPairs).filter
      (fun ke => !(env.isNonDim (env.familyOf ke.1)))).filter
        (fun ke => decide (ke.2 < 0))).map
          (fun ke => Dimension.pow env ⟨ke.1, 1⟩ |ke.2|)).map Dimension.unit).Nodup
  rw [List.map_map]
  have he : (Dimension.unit ∘
      fun (ke : U × ℚ) => Dimension.pow env ⟨ke.1, 1⟩ |ke.2|) = Prod.fst := by
    funext ke
    show (Dimension.pow env ⟨ke.1, 1⟩ |ke.2|).unit = ke.1
    rw [Dimension.pow]
    by_cases h : env.isNonDim (env.familyOf ke.1) = true <;> simp [h]
  rw [he]
  exact (((List.filter_sublist _).trans (List.filter_sublist _)).map Prod.fst).nodup
    (buildExps_keys_nodup c.expPairs)

theorem sumKey_gdList_of_mem [DecidableEq F] (L : List (GenericDimension F))
    (h : (L.map GenericDimension.unit_type).Nodup) (f : F) (p : ℚ)
    (hm : (⟨f, p⟩ : GenericDimension F) ∈ L) :
    sumKey (L.map (fun n => (n.unit_type, n.power))) f = p := by
  have hkeys : (L.map (fun n => (n.unit_type, n.power))).map Prod.fst =
      L.map GenericDimension.unit_type := by
    rw [List.map_map]
    rfl
  have hmem : (f, p) ∈ L.map (fun n => (n.unit_type, n.power)) :=
    List.mem_map.mpr ⟨⟨f, p⟩, hm, rfl⟩
  exact ((mem_iff_sumKey _ (hkeys ▸ h) f p).mp hmem).2

theorem sumKey_gdList_of_not_mem [DecidableEq F] (L : List (GenericDimension F))
    (f : F) (hn : ∀ p : ℚ, (⟨f, p⟩ : GenericDimension F) ∉ L) :
    sumKey (L.map (fun n => (n.unit_type, n.power))) f = 0 := by
  apply sumKey_zero_of_not_mem
  intro hmem
  have hkeys : (L.map (fun n => (n.unit_type, n.power))).map Prod.fst =
      L.map GenericDimension.unit_type := by
    rw [List.map_map]
    rfl
  rw [hkeys, List.mem_map] at hmem
  obtain ⟨n, hnL, hnf⟩ := hmem
  have : (⟨f, n.power⟩ : GenericDimension F) = n := by
    cases n
    cases hnf
    rfl
  exact hn n.power (this ▸ hnL)

theorem sumKey_dimList_of_mem [DecidableEq U] (L : List (Dimension U))
    (h : (L.map Dimension.unit).Nodup) (u : U) (p : ℚ)
    (hm : (⟨u, p⟩ : Dimension U) ∈ L) :
    sumKey (L.map (fun n => (n.unit, n.power))) u = p := by
  have hkeys : (L.map (fun n => (n.unit, n.power))).map Prod.fst =
      L.map Dimension.unit := by
    rw [List.map_map]
    rfl
  have hmem : (u, p) ∈ L.map (fun n => (n.unit, n.power)) :=
    List.mem_map.mpr ⟨⟨u, p⟩, hm, rfl⟩
  exact ((mem_iff_sumKey _ (hkeys ▸ h) u p).mp hmem).2

theorem sumKey_dimList_of_not_mem [DecidableEq U] (L : List (Dimension U))
    (u : U) (hn : ∀ p : ℚ, (⟨u, p⟩ : Dimension U) ∉ L) :
    sumKey (L.map (fun n => (n.unit, n.power))) u = 0 := by
  apply sumKey_zero_of_not_mem
  intro hmem
  have hkeys : (L.map (fun n => (n.unit, n.power))).map Prod.fst =
      L.map Dimension.unit := by
    rw [List.map_map]
    rfl
  rw [hkeys, List.mem_map] at hmem
  obtain ⟨n, hnL, hnu⟩ := hmem
  have : (⟨u, n.power⟩ : Dimension U) = n := by
    cases n
    cases hnu
    rfl
  exact hn n.power (this ▸ hnL)

/-- Simplifying preserves every net exponent (generic composites). -/
theorem gcd_simplify_netExp [DecidableEq F] (c : GenericCompositeDimension F)
    (f : F) : (c.simplify).netExp f = c.netExp f := by
  unfold GenericCompositeDimension.netExp
  rcases lt_trichotomy (c.netExp f) 0 with hlt | heq | hgt
  · have hden : (⟨f, -(c.netExp f)⟩ : GenericDimension F) ∈ c.simplify.denominator := by
      rw [gcd_simplify_mem_den]
      constructor
      · rw [neg_neg]
      · linarith
    have hnum : ∀ p : ℚ, (⟨f, p⟩ : GenericDimension F) ∉ c.simplify.numerator := by
      intro p hp
      rw [gcd_simplify_mem_num] at hp
      linarith [hp.1, hp.2]
    rw [sumKey_gdList_of_not_mem _ f hnum,
      sumKey_gdList_of_mem _ (gcd_simplify_keys_nodup_den c) f _ hden]
    show (0 : ℚ) - -c.netExp f = c.netExp f
    ring
  · have hnum : ∀ p : ℚ, (⟨f, p⟩ : GenericDimension F) ∉ c.simplify.numerator := by
      intro p hp
      rw [gcd_simplify_mem_num] at hp
      rw [heq] at hp
      linarith [hp.1, hp.2]
    have hden : ∀ p : ℚ, (⟨f, p⟩ : GenericDimension F) ∉ c.simplify.denominator := by
      intro p hp
      rw [gcd_simplify_mem_den] at hp
      rw [heq] at hp
      have := hp.1
      have := hp.2
      linarith
    rw [sumKey_gdList_of_not_mem _ f hnum, sumKey_gdList_of_not_mem _ f hden]
    show (0 : ℚ) - 0 = c.netExp f
    rw [heq]
    ring
  · have hnum : (⟨f, c.netExp f⟩ : GenericDimension F) ∈ c.simplify.numerator := by
      rw [gcd_simplify_mem_num]
      exact ⟨rfl, hgt⟩
    have hden : ∀ p : ℚ, (⟨f, p⟩ : GenericDimension F) ∉ c.simplify.denominator := by
      intro p hp
      rw [gcd_simplify_mem_den] at hp
      linarith [hp.1, hp.2]
    rw [sumKey_gdList_of_mem _ (gcd_simplify_keys_nodup_num c) f _ hnum,
      sumKey_gdList_of_not_mem _ f hden]
    show c.netExp f - 0 = c.netExp f
    ring

/-- Simplifying preserves the net exponent of every unit that is not
non-dimensional (concrete composites). -/
theorem cd_simplify_netExp [DecidableEq U] (env : UnitEnv F U)
    (c : CompositeDimension U) (u : U)
    (hnd : env.isNonDim (env.familyOf u) = false) :
    (c.simplify env).netExp u = c.netExp u := by
  unfold CompositeDimension.netExp
  rcases lt_trichotomy (c.netExp u) 0 with hlt | heq | hgt
  · have hden : (⟨u, -(c.netExp u)⟩ : Dimension U) ∈ (c.simplify env).denominator := by
      rw [cd_simplify_mem_den]
      refine ⟨hnd, ?_, ?_⟩
      · rw [neg_neg]
      · linarith
    have hnum : ∀ p : ℚ, (⟨u, p⟩ : Dimension U) ∉ (c.simplify env).numerator := by
      intro p hp
      rw [cd_simplify_mem_num] at hp
      linarith [hp.2.1, hp.2.2]
    rw [sumKey_dimList_of_not_mem _ u hnum,
      sumKey_dimList_of_mem _ (cd_simplify_keys_nodup_den env c) u _ hden]
    show (0 : ℚ) - -c.netExp u = c.netExp u
    ring
  · have hnum : ∀ p : ℚ, (⟨u, p⟩ : Dimension U) ∉ (c.simplify env).numerator := by
      intro p hp
      rw [cd_simplify_mem_num] at hp
      rw [heq] at hp
      linarith [hp.2.1, hp.2.2]
    have hden : ∀ p : ℚ, (⟨u, p⟩ : Dimension U) ∉ (c.simplify env).denominator := by
      intro p hp
      rw [cd_simplify_mem_den] at hp
      rw [heq] at hp
      have := hp.2.1
      have := hp.2.2
      linarith
    rw [sumKey_dimList_of_not_mem _ u hnum, sumKey_dimList_of_not_mem _ u hden]
    show (0 : ℚ) - 0 = c.netExp u
    rw [heq]
    ring
  · have hnum : (⟨u, c.netExp u⟩ : Dimension U) ∈ (c.simplify env).numerator := by
      rw [cd_simplify_mem_num]
      exact ⟨hnd, rfl, hgt⟩
    have hden : ∀ p : ℚ, (⟨u, p⟩ : Dimension U) ∉ (c.simplify env).denominator := by
      intro p hp
      rw [cd_simplify_mem_den] at hp
      linarith [hp.2.1, hp.2.2]
    rw [sumKey_dimList_of_mem _ (cd_simplify_keys_nodup_num env c) u _ hnum,
      sumKey_dimList_of_not_mem _ u hden]
    show c.netExp u - 0 = c.netExp u
    ring

theorem PyGeneric.eqb_self [DecidableEq F] : ∀ g : PyGeneric F, g.eqb g = true
  | .unitType f => by simp [PyGeneric.eqb]
  | .dim d => by simp [PyGeneric.eqb]
  | .comp c => by
    show c.eqb c = true
    unfold GenericCompositeDimension.eqb permEqb
    rw [Bool.and_eq_true, decide_eq_true_eq, decide_eq_true_eq]
    exact ⟨List.Perm.refl _, List.Perm.refl _⟩

theorem lookupConv_cons_self [DecidableEq F] (reg : Registry F U)
    (g : PyGeneric F) (c : ConverterVal F U) :
    lookupConv ((g, c) :: reg) g = some c := by
  unfold lookupConv
  rw [List.find?_cons_of_pos]
  · rfl
  · exact PyGeneric.eqb_self g

theorem lookupConv_cons_ne [DecidableEq F] (reg : Registry F U)
    (g g2 : PyGeneric F) (c : ConverterVal F U) (h : g.eqb g2 = false) :
    lookupConv ((g, c) :: reg) g2 = lookupConv reg g2 := by
  unfold lookupConv
  rw [List.find?_cons_of_neg]
  exact fun hh => by rw [h] at hh; exact Bool.false_ne_true hh

/-- Every simplify output is a fixed point of eqb-equality under a second
simplify: the generic half of the idempotence argument. -/
theorem gcd_simplify_idem [DecidableEq F] (c : GenericCompositeDimension F) :
    ((c.simplify).simplify).eqb c.simplify = true := by
  have hnum : ((c.simplify).simplify).numerator.Perm (c.simplify).numerator := by
    apply (List.perm_ext_iff_of_nodup
      (List.Nodup.of_map _ (gcd_simplify_keys_nodup_num (c.simplify)))
      (List.Nodup.of_map _ (gcd_simplify_keys_nodup_num c))).mpr
    intro a
    cases a with
    | mk f p =>
      rw [gcd_simplify_mem_num, gcd_simplify_mem_num, gcd_simplify_netExp]
  have hden : ((c.simplify).simplify).denominator.Perm (c.simplify).denominator := by
    apply (List.perm_ext_iff_of_nodup
      (List.Nodup.of_map _ (gcd_simplify_keys_nodup_den (c.simplify)))
      (List.Nodup.of_map _ (gcd_simplify_keys_nodup_den c))).mpr
    intro a
    cases a with
    | mk f p =>
      rw [gcd_simplify_mem_den, gcd_simplify_mem_den, gcd_simplify_netExp]
  unfold GenericCompositeDimension.eqb permEqb
  rw [Bool.and_eq_true, decide_eq_true_eq, decide_eq_true_eq]
  exact ⟨hnum, hden⟩

/-- The concrete half of the idempotence argument. -/
theorem cd_simplify_idem [DecidableEq U] (env : UnitEnv F U)
    (c : CompositeDimension U) :
    ((c.simplify env).simplify env).eqb (c.simplify env) = true := by
  have hnum : ((c.simplify env).simplify env).numerator.Perm
      (c.simplify env).numerator := by
    apply (List.perm_ext_iff_of_nodup
      (List.Nodup.of_map _ (cd_simplify_keys_nodup_num env (c.simplify env)))
      (List.Nodup.of_map _ (cd_simplify_keys_nodup_num env c))).mpr
    intro a
    cases a with
    | mk u p =>
      rw [cd_simplify_mem_num, cd_simplify_mem_num]
      constructor
      · rintro ⟨hnd, hnet, hpos⟩
        exact ⟨hnd, by rw [← cd_simplify_netExp env c u hnd]; exact hnet, hpos⟩
      · rintro ⟨hnd, hnet, hpos⟩
        exact ⟨hnd, by rw [cd_simplify_netExp env c u hnd]; exact hnet, hpos⟩
  have hden : ((c.simplify env).simplify env).denominator.Perm
      (c.simplify env).denominator := by
    apply (List.perm_ext_iff_of_nodup
      (List.Nodup.of_map _ (cd_simplify_keys_nodup_den env (c.simplify env)))
      (List.Nodup.of_map _ (cd_simplify_keys_nodup_den env c))).mpr
    intro a
    cases a with
    | mk u p =>
      rw [cd_simplify_mem_den, cd_simplify_mem_den]
      constructor
      · rintro ⟨hnd, hnet, hpos⟩
        exact ⟨hnd, by rw [← cd_simplify_netExp env c u hnd]; exact hnet, hpos⟩
      · rintro ⟨hnd, hnet, hpos⟩
        exact ⟨hnd, by rw [cd_simplify_netExp env c u hnd]; exact hnet, hpos⟩
  unfold CompositeDimension.eqb permEqb
  rw [Bool.and_eq_true, decide_eq_true_eq, decide_eq_true_eq]
  exact ⟨hnum, hden⟩

/-- The store holding the numerator list [PressureUnit] (cell 0) and the
denominator list [LengthUnit] (cell 1) of the composite PressureUnit /
LengthUnit — the analyse docstring's own example. -/
def pressurePerLengthStore : ListStore (GenericDimension Fam) :=
  ⟨[[⟨Fam.pressure, 1⟩], [⟨Fam.length, 1⟩]]⟩

/-- C1: the claim says is_equivalent is symmetric in outcome for every pair of
generic descriptors under acyclic alias declarations.  The code is not: with
AreaUnit aliasing LengthUnit**2 (the AliasMeasurementUnit docstring example),
LengthUnit.is_equivalent(AreaUnit**0.5) is True — the alias expands to
LengthUnit**1.0 — while (AreaUnit**0.5).is_equivalent(LengthUnit) is False,
because GenericDimension.is_equivalent (descriptors.py 658-663) never expands
an alias on the self side when other is a bare family. -/
theorem is_equivalent_asymmetric_on_alias_dimension :
    isEquiv envL 10 (.unitType Fam.length) (.dim ⟨Fam.area, 1/2⟩) = true ∧
    isEquiv envL 10 (.dim ⟨Fam.area, 1/2⟩) (.unitType Fam.length) = false := by
  constructor
  · decide
  · decide

/-- C2: the claim says analysed() leaves the receiver's lists unchanged.  It
does not: dataclasses.replace shares the two list objects between receiver and
copy, and analyse() mutates them in place, so after d.analysed() on
PressureUnit / LengthUnit the receiver's numerator list holds [MassUnit] and
its denominator list [LengthUnit, LengthUnit, TimeUnit^2].  simplified(), by
contrast, only rebinds the copy's attributes and leaves the receiver's lists
untouched. -/
theorem analysed_mutates_receiver_lists :
    (analysedObj envL 10 pressurePerLengthStore ⟨0, 1⟩).1.read 0 ≠
      pressurePerLengthStore.read 0 ∧
    (analysedObj envL 10 pressurePerLengthStore ⟨0, 1⟩).1.read 0 =
      [⟨Fam.mass, 1⟩] ∧
    (analysedObj envL 10 pressurePerLengthStore ⟨0, 1⟩).1.read 1 =
      [⟨Fam.length, 1⟩, ⟨Fam.length, 1⟩, ⟨Fam.time, 2⟩] ∧
    pressurePerLengthStore.read 0 = [⟨Fam.pressure, 1⟩] ∧
    (simplifiedObj pressurePerLengthStore ⟨0, 1⟩).1.read 0 =
      pressurePerLengthStore.read 0 ∧
    (simplifiedObj pressurePerLengthStore ⟨0, 1⟩).1.read 1 =
      pressurePerLengthStore.read 1 := by
  refine ⟨by decide, by decide, by decide, by decide, by decide, by decide⟩

/-- C3 counterexample: the claim says simplify drops non-dimensional units for
generic and concrete composites alike.  GenericCompositeDimension.simplify has
no non-dimensional filter: simplifying the generic composite with numerator
[NonDimensionalUnit] keeps the non-dimensional family. -/
theorem generic_simplify_keeps_non_dimensional :
    envL.isNonDim Fam.nd = true ∧
    (GenericCompositeDimension.simplify ⟨[⟨Fam.nd, 1⟩], []⟩).numerator =
      [⟨Fam.nd, 1⟩] := by
  refine ⟨rfl, by decide⟩

/-- C3 (amended): simplification merges matching factors by real addition of
exponents and removes entries whose net exponent is zero, for generic and
concrete composites alike — a family or unit appears in the output (at most
once per side) with power p in the numerator exactly when its net exponent is
p > 0, and in the denominator exactly when its net exponent is -p with p > 0;
but non-dimensional units are dropped only by the concrete
CompositeDimension.simplify, not by GenericCompositeDimension.simplify. -/
theorem simplify_exponent_characterization [DecidableEq F] [DecidableEq U]
    (env : UnitEnv F U) (c : GenericCompositeDimension F)
    (cc : CompositeDimension U) (f : F) (u : U) (p : ℚ) :
    (⟨f, p⟩ ∈ c.simplify.numerator ↔ c.netExp f = p ∧ 0 < p) ∧
    (⟨f, p⟩ ∈ c.simplify.denominator ↔ c.netExp f = -p ∧ 0 < p) ∧
    (c.simplify.numerator.map GenericDimension.unit_type).Nodup ∧
    (c.simplify.denominator.map GenericDimension.unit_type).Nodup ∧
    (⟨u, p⟩ ∈ (cc.simplify env).numerator ↔
      env.isNonDim (env.familyOf u) = false ∧ cc.netExp u = p ∧ 0 < p) ∧
    (⟨u, p⟩ ∈ (cc.simplify env).denominator ↔
      env.isNonDim (env.familyOf u) = false ∧ cc.netExp u = -p ∧ 0 < p) ∧
    ((cc.simplify env).numerator.map Dimension.unit).Nodup ∧
    ((cc.simplify env).denominator.map Dimension.unit).Nodup :=
  ⟨gcd_simplify_mem_num c f p, gcd_simplify_mem_den c f p,
    gcd_simplify_keys_nodup_num c, gcd_simplify_keys_nodup_den c,
    cd_simplify_mem_num env cc u p, cd_simplify_mem_den env cc u p,
    cd_simplify_keys_nodup_num env cc, cd_simplify_keys_nodup_den env cc⟩

/-- C4: registry auto-synthesis is idempotent.  For an unregistered
GenericDimension with power ≠ 1, and for an unregistered
GenericCompositeDimension, the first get_converter call synthesizes, registers
and returns a default converter, and the second call raises no
duplicate-registration error, changes nothing, and returns the converter the
first call cached: its full result (value and registry) equals the first
call's. -/
theorem getConverter_dim_eq [DecidableEq F] (reg : Registry F U)
    (d : GenericDimension F) :
    getConverter reg (.generic (.dim d)) =
      if d.power = 1 then (finalLookup reg (.unitType d.unit_type), reg)
      else if (lookupConv reg (.dim d)).isNone then
        match registerConverter reg (.generic (.dim d)) (.exponentiated (.dim d)) with
        | .ok reg1 => (finalLookup reg1 (.dim d), reg1)
        | .error e => (.error e, reg)
      else (finalLookup reg (.dim d), reg) := rfl

theorem getConverter_comp_eq [DecidableEq F] (reg : Registry F U)
    (c : GenericCompositeDimension F) :
    getConverter reg (.generic (.comp c)) =
      if (lookupConv reg (.comp c)).isNone then
        match registerConverter reg (.generic (.comp c)) (.composite (.comp c)) with
        | .ok reg1 => (finalLookup reg1 (.comp c), reg1)
        | .error e => (.error e, reg)
      else (finalLookup reg (.comp c), reg) := rfl

theorem registerConverter_eq [DecidableEq F] (reg : Registry F U)
    (g : PyGeneric F) (cls : ConverterVal F U) :
    registerConverter reg (.generic g) cls =
      if (lookupConv reg g).isSome then .error .valueError
      else .ok ((g, cls.setGeneric g) :: reg) := rfl

theorem finalLookup_of_some [DecidableEq F] (reg : Registry F U)
    (g : PyGeneric F) (c : ConverterVal F U) (h : lookupConv reg g = some c) :
    finalLookup reg g = .ok c := by
  unfold finalLookup
  rw [h]

/-- C4: registry auto-synthesis is idempotent.  For an unregistered
GenericDimension with power ≠ 1, and for an unregistered
GenericCompositeDimension, the first get_converter call synthesizes, registers
and returns a default converter, and the second call raises no
duplicate-registration error, changes nothing, and returns the converter the
first call cached: its full result (value and registry) equals the first
call's. -/
theorem get_converter_synthesis_idempotent [DecidableEq F]
    (reg : Registry F U) (gd : GenericDimension F)
    (cd : GenericCompositeDimension F) (hp : ¬gd.power = 1)
    (hd : lookupConv reg (.dim gd) = none)
    (hc : lookupConv reg (.comp cd) = none) :
    ((getConverter reg (.generic (.dim gd))).1 =
        .ok (.exponentiated (.dim gd)) ∧
      getConverter (getConverter reg (.generic (.dim gd))).2
          (.generic (.dim gd)) =
        getConverter reg (.generic (.dim gd))) ∧
    ((getConverter reg (.generic (.comp cd))).1 = .ok (.composite (.comp cd)) ∧
      getConverter (getConverter reg (.generic (.comp cd))).2
          (.generic (.comp cd)) =
        getConverter reg (.generic (.comp cd))) := by
  have hfirst : getConverter reg (.generic (.dim gd)) =
      (.ok (.exponentiated (.dim gd)),
        (PyGeneric.dim gd, ConverterVal.exponentiated (.dim gd)) :: reg) := by
    rw [getConverter_dim_eq, if_neg hp, hd]
    rw [registerConverter_eq, hd]
    simp only [Option.isNone_none, Option.isSome_none, if_true,
      Bool.false_eq_true, if_false]
    rw [finalLookup_of_some _ _ _ (lookupConv_cons_self reg (.dim gd) _)]
    rfl
  have hfirst2 : getConverter reg (.generic (.comp cd)) =
      (.ok (.composite (.comp cd)),
        (PyGeneric.comp cd, ConverterVal.composite (.comp cd)) :: reg) := by
    rw [getConverter_comp_eq, hc]
    rw [registerConverter_eq, hc]
    simp only [Option.isNone_none, Option.isSome_none, if_true,
      Bool.false_eq_true, if_false]
    rw [finalLookup_of_some _ _ _ (lookupConv_cons_self reg (.comp cd) _)]
    rfl
  refine ⟨⟨by rw [hfirst], ?_⟩, ⟨by rw [hfirst2], ?_⟩⟩
  · rw [hfirst]
    show getConverter ((PyGeneric.dim gd, ConverterVal.exponentiated (.dim gd)) :: reg)
      (.generic (.dim gd)) = _
    rw [getConverter_dim_eq, if_neg hp, lookupConv_cons_self]
    simp only [Option.isNone_some, Bool.false_eq_true, if_false]
    rw [finalLookup_of_some _ _ _ (lookupConv_cons_self reg (.dim gd) _)]
  · rw [hfirst2]
    show getConverter ((PyGeneric.comp cd, ConverterVal.composite (.comp cd)) :: reg)
      (.generic (.comp cd)) = _
    rw [getConverter_comp_eq, lookupConv_cons_self]
    simp only [Option.isNone_some, Bool.false_eq_true, if_false]
    rw [finalLookup_of_some _ _ _ (lookupConv_cons_self reg (.comp cd) _)]

/-- C4 witness: in the doctest registry (length, time, velocity), the generic
LengthUnit**3.14 and the generic MassUnit-composite are unregistered, and the
two successive get_converter calls behave as the theorem states. -/
theorem get_converter_synthesis_idempotent_witness :
    (¬(⟨Fam.length, 157/50⟩ : GenericDimension Fam).power = 1) ∧
    lookupConv regLT (.dim ⟨Fam.length, 157/50⟩) = none ∧
    lookupConv regLT (.comp ⟨[⟨Fam.mass, 1⟩], []⟩) = none ∧
    (getConverter regLT (.generic (.dim ⟨Fam.length, 157/50⟩))).1 =
      .ok (.exponentiated (.dim ⟨Fam.length, 157/50⟩)) ∧
    getConverter (getConverter regLT
        (.generic (.dim ⟨Fam.length, 157/50⟩))).2
        (.generic (.dim ⟨Fam.length, 157/50⟩)) =
      getConverter regLT (.generic (.dim ⟨Fam.length, 157/50⟩)) := by
  have h := get_converter_synthesis_idempotent regLT ⟨Fam.length, 157/50⟩
    ⟨[⟨Fam.mass, 1⟩], []⟩ (by decide) (by decide) (by decide)
  exact ⟨by decide, by decide, by decide, h.1.1, h.1.2⟩

/-- C5 counterexample: the claim says a bare family and the power-1
GenericDimension over it compare (and hash) equal.  They do not:
GenericDimension.__eq__ returns False for any operand that is not a
GenericDimension, and the class object never equals the dimension, so == is
False in both directions for LengthUnit. -/
theorem power_one_dimension_not_eq_bare_family :
    PyGeneric.eqb (.dim ⟨Fam.length, 1⟩) (.unitType Fam.length) = false ∧
    PyGeneric.eqb (.unitType Fam.length) (.dim ⟨Fam.length, 1⟩) = false := by
  exact ⟨rfl, rfl⟩

/-- C5 (amended): a bare family and GenericDimension(family, 1) are NOT equal
under Python == (and so not interchangeable as dict keys); nevertheless the
API treats them alike where the claim says so: Dimension.isinstance accepts a
bare family exactly when it accepts the power-1 GenericDimension over it
(the bare argument is first wrapped into that dimension), and get_converter on
a power-1 GenericDimension returns exactly what it returns for the bare
family, registry state included. -/
theorem power_one_dimension_api_interchangeable [DecidableEq F] [DecidableEq U]
    (env : UnitEnv F U) (d : Dimension U) (f : F) (reg : Registry F U) :
    d.isinstance env (.unitType f) = d.isinstance env (.dim ⟨f, 1⟩) ∧
    getConverter reg (.generic (.dim ⟨f, 1⟩)) =
      getConverter reg (.generic (.unitType f)) := by
  constructor
  · rfl
  · rw [getConverter_dim_eq]
    rw [if_pos rfl]
    rfl

/-- C6: register_converter fails in exactly two ways: a type error when the
argument is not one of the three generic shapes, a registration-conflict
(value) error when the exact generic already has a converter; otherwise it
succeeds, stores the converter under the generic, and leaves every other
key's lookup unchanged — an existing entry is never overwritten. -/
theorem register_converter_error_cases [DecidableEq F]
    (reg : Registry F U) (conv : ConverterVal F U) (g : PyGeneric F) :
    registerConverter reg .notGeneric conv = .error .typeError ∧
    ((∃ c, lookupConv reg g = some c) →
      registerConverter reg (.generic g) conv = .error .valueError) ∧
    (lookupConv reg g = none →
      registerConverter reg (.generic g) conv =
        .ok ((g, conv.setGeneric g) :: reg) ∧
      ∀ g2 : PyGeneric F, g.eqb g2 = false →
        lookupConv ((g, conv.setGeneric g) :: reg) g2 = lookupConv reg g2) := by
  refine ⟨rfl, ?_, ?_⟩
  · rintro ⟨c, hcs⟩
    rw [registerConverter_eq, hcs]
    rfl
  · intro hn
    refine ⟨?_, ?_⟩
    · rw [registerConverter_eq, hn]
      rfl
    · intro g2 hne
      exact lookupConv_cons_ne reg g g2 _ hne

/-- C6 witness: in the doctest registry, a non-generic argument raises the
type error, re-registering LengthUnit raises the conflict error, and
registering the unregistered MassUnit succeeds. -/
theorem register_converter_error_cases_witness :
    registerConverter regLT .notGeneric lengthConverter = .error .typeError ∧
    registerConverter regLT (.generic (.unitType Fam.length)) lengthConverter =
      .error .valueError ∧
    registerConverter regLT (.generic (.unitType Fam.mass)) lengthConverter =
      .ok ((.unitType Fam.mass,
        lengthConverter.setGeneric (.unitType Fam.mass)) :: regLT) := by
  refine ⟨(register_converter_error_cases regLT lengthConverter
      (.unitType Fam.length)).1, ?_, ?_⟩
  · exact (register_converter_error_cases regLT lengthConverter
      (.unitType Fam.length)).2.1 ⟨lengthConverter, by decide⟩
  · exact ((register_converter_error_cases regLT lengthConverter
      (.unitType Fam.mass)).2.2 (by decide)).1

theorem runConv_absolute_convert_eq [DecidableEq F] [DecidableEq U]
    (env : UnitEnv F U) (fuel : Nat) (reg : Registry F U) (g : PyGeneric F)
    (refU : U) (cmap : List (U × ℚ)) (v : ℚ) (a b : PyUnitDesc U) :
    runConv env (fuel + 1) reg (.absolute g refU cmap) (.convert v a b) =
      match runConv env fuel reg (.absolute g refU cmap) (.factor a b) with
      | (.ok fac, reg1) => (.ok (v * fac), reg1)
      | (.error e, reg1) => (.error e, reg1) := rfl

/-- C7: for an absolute-linear converter registered for the bare family f and
any two unit instances of f present in its conversion map (from not being an
alias instance converted to a non-alias target), get_factor returns
(1 / conversion_map[from]) * conversion_map[to], leaves the registry alone,
and convert multiplies the value by that factor. -/
theorem absolute_converter_factor_formula [DecidableEq F] [DecidableEq U]
    (env : UnitEnv F U) (n : Nat) (reg : Registry F U) (f : F) (refU : U)
    (cmap : List (U × ℚ)) (uf ut : U) (qf qt v : ℚ)
    (hf : env.familyOf uf = f) (ht : env.familyOf ut = f)
    (hqf : lookupMap cmap uf = some qf) (hqt : lookupMap cmap ut = some qt)
    (hnoalias : ¬(env.isAlias (env.familyOf uf) = true ∧
      isAliasUnitDesc env (.unit ut) = false)) :
    runConv env (n + 1) reg (.absolute (.unitType f) refU cmap)
        (.factor (.unit uf) (.unit ut)) = (.ok (1 / qf * qt), reg) ∧
    runConv env (n + 2) reg (.absolute (.unitType f) refU cmap)
        (.convert v (.unit uf) (.unit ut)) = (.ok (v * (1 / qf * qt)), reg) := by
  have hcf : PyUnitDesc.isinstanceEquivalent env (n + 1)
      (PyUnitDesc.unit uf) (PyGeneric.unitType f) = true := by
    show isEquiv env (n + 1) (.unitType (env.familyOf uf)) (.unitType f) = true
    rw [hf]
    show decide (f = f) = true
    exact decide_eq_true rfl
  have hct : PyUnitDesc.isinstanceEquivalent env (n + 1)
      (PyUnitDesc.unit ut) (PyGeneric.unitType f) = true := by
    show isEquiv env (n + 1) (.unitType (env.familyOf ut)) (.unitType f) = true
    rw [ht]
    show decide (f = f) = true
    exact decide_eq_true rfl
  have hguard : (env.isAlias (env.familyOf uf) &&
      !(isAliasUnitDesc env (PyUnitDesc.unit ut))) = false := by
    show (env.isAlias (env.familyOf uf) && !(env.isAlias (env.familyOf ut))) = false
    rw [hf, ht]
    exact Bool.and_not_self _
  have hfac : runConv env (n + 1) reg (.absolute (.unitType f) refU cmap)
      (.factor (.unit uf) (.unit ut)) = (.ok (1 / qf * qt), reg) := by
    simp [runConv, unitFromDescriptor, hcf, hct, hguard, hqf, hqt]
  refine ⟨hfac, ?_⟩
  rw [runConv_absolute_convert_eq, hfac]

/-- C7 witness: the doctest LengthUnit converter with INCH → 1 and
CENTI_METER → 2.54 gives factor (1/1) * 2.54 and converts 2 inches to
5.08 centimeters. -/
theorem absolute_converter_factor_formula_witness :
    envL.familyOf Un.inch = Fam.length ∧
    lookupMap [(Un.inch, 1), (Un.centiMeter, 127/50)] Un.inch = some 1 ∧
    lookupMap [(Un.inch, 1), (Un.centiMeter, 127/50)] Un.centiMeter =
      some (127/50) ∧
    runConv envL 10 regLT (.absolute (.unitType Fam.length) Un.inch
        [(Un.inch, 1), (Un.centiMeter, 127/50)])
      (.factor (.unit Un.inch) (.unit Un.centiMeter)) =
        (.ok (1 / 1 * (127/50)), regLT) ∧
    runConv envL 11 regLT (.absolute (.unitType Fam.length) Un.inch
        [(Un.inch, 1), (Un.centiMeter, 127/50)])
      (.convert 2 (.unit Un.inch) (.unit Un.centiMeter)) =
        (.ok (2 * (1 / 1 * (127/50))), regLT) := by
  have h := absolute_converter_factor_formula envL 9 regLT Fam.length Un.inch
    [(Un.inch, 1), (Un.centiMeter, 127/50)] Un.inch Un.centiMeter 1 (127/50) 2
    (by decide) (by decide) (by decide) (by decide)
    (by intro hcontra; exact absurd hcontra.1 (by decide))
  exact ⟨by decide, by decide, by decide, h.1, h.2⟩

/-- C8: simplification is idempotent — for generic and concrete composites
alike, d.simplified().simplified() == d.simplified() under the library's own
Counter-based equality. -/
theorem simplified_idempotent [DecidableEq F] [DecidableEq U] (env : UnitEnv F U)
    (c : GenericCompositeDimension F) (cc : CompositeDimension U) :
    ((c.simplify).simplify).eqb c.simplify = true ∧
    ((cc.simplify env).simplify env).eqb (cc.simplify env) = true :=
  ⟨gcd_simplify_idem c, cd_simplify_idem env cc⟩

/-- C9: with the doctest converters (INCH → CENTI_METER factor 2.54,
MINUTE/SECOND time converter) and the composite converter registered for
LengthUnit / TimeUnit, converting 100 from INCH/SECOND to CENTI_METER/SECOND
returns exactly 254, by per-member dispatch, and leaves the registry
unchanged. -/
theorem composite_convert_inch_per_second :
    runConv envL 30 regLT velocityConverter
        (.convert 100 (.comp inchPerSecond) (.comp cmPerSecond)) =
      (.ok 254, regLT) := by
  decide

/-- C10: exponentiating a non-dimensional unit never changes its power —
u ** p is Dimension(u, 1) for every power p, and Dimension ** p resets the
stored power to 1 instead of multiplying. -/
theorem non_dimensional_pow_resets [DecidableEq F] [DecidableEq U]
    (env : UnitEnv F U) (u : U) (d : Dimension U) (p : ℚ)
    (hu : env.isNonDim (env.familyOf u) = true)
    (hd : env.isNonDim (env.familyOf d.unit) = true) :
    unitPow env u p = ⟨u, 1⟩ ∧ Dimension.pow env d p = ⟨d.unit, 1⟩ := by
  constructor
  · unfold unitPow
    rw [if_pos hu]
  · unfold Dimension.pow
    rw [if_pos hd]

/-- C10 witness: the non-dimensional unit raised to -3 (from power 5 for the
Dimension case) yields power 1. -/
theorem non_dimensional_pow_resets_witness :
    envL.isNonDim (envL.familyOf Un.ndUnit) = true ∧
    unitPow envL Un.ndUnit (-3) = ⟨Un.ndUnit, 1⟩ ∧
    Dimension.pow envL ⟨Un.ndUnit, 5⟩ (-3) = ⟨Un.ndUnit, 1⟩ := by
  refine ⟨by decide, ?_, ?_⟩
  · exact (non_dimensional_pow_resets envL Un.ndUnit ⟨Un.ndUnit, 5⟩ (-3)
      (by decide) (by decide)).1
  · exact (non_dimensional_pow_resets envL Un.ndUnit ⟨Un.ndUnit, 5⟩ (-3)
      (by decide) (by decide)).2

end PropertyUtils
